import Mathlib

/-!
Shallow embedding of the attachment-embedding engine of
`src/src-tauri/src/lib.rs` (the OLE / DOCX embedding core), together with
proofs about the properties its design document states.

Byte buffers (`Vec<u8>`) are modelled as `List Nat` whose elements are byte
values; machine integers are modelled as `Nat` with explicit `% 2 ^ w`
reductions where the Rust code casts.  Strings are Lean `String`s; where the
Rust code walks `chars()` the model walks `String.data`.
-/

namespace ArchiveBox

/-- Little-endian serialization of `(n as u32).to_le_bytes()`:
four bytes, least significant first.  For every `n`, byte `k` equals
`(n % 2 ^ 32) / 256 ^ k % 256`, so this also models the wrap of the
`as u32` cast. -/
def u32le (n : Nat) : List Nat :=
  [n % 256, n / 256 % 256, n / 65536 % 256, n / 16777216 % 256]

/-- UTF-16 code units of one Unicode scalar value, as Rust
`char::encode_utf16` produces them: one unit below `0x10000`, otherwise a
surrogate pair. -/
def utf16Units (c : Char) : List Nat :=
  if c.toNat < 0x10000 then [c.toNat]
  else [0xD800 + (c.toNat - 0x10000) / 0x400, 0xDC00 + (c.toNat - 0x10000) % 0x400]

/-- UTF-16LE byte encoding of a character list. -/
def utf16leOfChars (l : List Char) : List Nat :=
  (l.flatMap utf16Units).flatMap (fun u => [u % 256, u / 256 % 256])

/-- UTF-16LE byte encoding of a string, as built throughout the source by
`s.encode_utf16().flat_map(|c| c.to_le_bytes())`. -/
def utf16leBytes (s : String) : List Nat :=
  utf16leOfChars s.data

/-- Models `encoding_rs::GBK.encode`: ASCII characters map to their own byte,
any other character to a two-byte GBK code.  The exact GBK table is
irrelevant to every claim proved below (no claim inspects particular
non-ASCII byte values), so the two-byte codes are a fixed placeholder pair;
what the model keeps faithful is that the encoder is a homomorphism on
concatenation and that characters other than NUL never encode to a zero
byte. -/
def encodeGBK (s : String) : List Nat :=
  s.data.flatMap (fun c => if c.toNat < 128 then [c.toNat] else [0x81, 0x40])

/-- File-type classification, from `enum FileType`. -/
inductive FileType where
  | Video
  | PDF
  | Image
  | Document
  | Excel
  | ZIP
  | Other (ext : String)
  deriving Repr, DecidableEq

/-- One attachment record, from `struct EmbeddedFile`. -/
structure EmbeddedFile where
  id : String
  name : String
  path : String
  data : List Nat
  content_type : String
  file_type : FileType
  zip_id : String
  deriving Repr, DecidableEq

/-- The `\x01Ole10Native` stream bytes assembled by `create_ole_package`
(`native_data` in the source), as a function of the display name and the
payload bytes:
length, marker `02 00`, GBK name + NUL, GBK `"C:/" + name` path + NUL,
separator `00 00 03 00`, 4-byte length-prefixed GBK temp path + NUL,
length again, then the raw payload verbatim. -/
def createOle10NativeData (name : String) (data : List Nat) : List Nat :=
  let filename_gbk := encodeGBK name
  let path_bytes := encodeGBK ("C:/" ++ name)
  let temp_path_bytes := encodeGBK ("C:\\Users\\Public\\" ++ name)
  u32le data.length
    ++ [0x02, 0x00]
    ++ filename_gbk ++ [0]
    ++ path_bytes ++ [0]
    ++ [0, 0, 0x03, 0x00]
    ++ u32le (temp_path_bytes.length + 1)
    ++ temp_path_bytes ++ [0]
    ++ u32le data.length
    ++ data

/-- The `\x01CompObj` stream bytes from `create_comp_obj_stream`: version,
byte order, format version, reserved, the Package CLSID, the ASCII type
name `"Package"` length-prefixed and NUL-terminated, an empty clipboard
format, and a reserved trailer.  The `_filename` argument of the source is
unused there and omitted here. -/
def createCompObjStream : List Nat :=
  [0x01, 0x00]
    ++ [0xFE, 0xFF]
    ++ [0x03, 0x0A, 0x00, 0x00]
    ++ [0xFF, 0xFF, 0xFF, 0xFF]
    ++ [0x0C, 0x00, 0x00, 0x00, 0x00, 0x00, 0x00, 0x00,
        0xC0, 0x00, 0x00, 0x00, 0x00, 0x00, 0x00, 0x46]
    ++ u32le 7 ++ (("Package".data.map Char.toNat) ++ [0])
    ++ u32le 0
    ++ u32le 0

/-- The compound container built by `create_ole_package`, represented by its
two named streams.  The sector-level serialization performed by the external
`cfb` crate is outside the repository and outside every claim; the container
is therefore kept at the stream level. -/
def createOlePackage (file : EmbeddedFile) : List (String × List Nat) :=
  [("\x01Ole10Native", createOle10NativeData file.name file.data),
   ("\x01CompObj", createCompObjStream)]

/-- Decode a 4-byte little-endian integer (inverse of `u32le` below `2^32`). -/
def leU32 (b : List Nat) : Nat :=
  match b with
  | [b0, b1, b2, b3] => b0 + b1 * 256 + b2 * 65536 + b3 * 16777216
  | _ => 0

/-- Split a byte list at its first zero byte: returns the bytes before the
first `0` and the bytes after it, or `none` when no zero byte occurs.
Used by `parseOle10Native` for the NUL-terminated fields of the layout. -/
def splitAtZero : List Nat → Option (List Nat × List Nat)
  | [] => none
  | b :: rest =>
    if b = 0 then some ([], rest)
    else match splitAtZero rest with
      | some (pre, post) => some (b :: pre, post)
      | none => none

/-- The inverse of the documented `Ole10Native` layout: read the leading
length, the `02 00` marker, the NUL-terminated name and path, the
`00 00 03 00` separator, the length-prefixed temporary path, the second
length field, and finally that many payload bytes.  Returns the recovered
payload bytes. -/
def parseOle10Native (stream : List Nat) : Option (List Nat) :=
  let size1 := leU32 (stream.take 4)
  let s1 := stream.drop 4
  if s1.take 2 = [0x02, 0x00] then
    match splitAtZero (s1.drop 2) with
    | none => none
    | some (_fname, s3) =>
      match splitAtZero s3 with
      | none => none
      | some (_fpath, s4) =>
        if s4.take 4 = [0, 0, 0x03, 0x00] then
          let s5 := s4.drop 4
          let tlen := leU32 (s5.take 4)
          let s6 := (s5.drop 4).drop tlen
          let size2 := leU32 (s6.take 4)
          let payload := s6.drop 4
          if size2 = size1 ∧ payload.length = size2 then some payload else none
        else none
  else none

/-- Rust `Path::file_stem` / `Path::extension` on a bare file name (no path
separators), returned as `(stem, extension)` character lists: the name is
split at its last `.` when that dot is not the leading character; otherwise
the whole name is the stem and the extension is empty.  The component `..`
is its own stem, as for `Path`. -/
def splitStemExt (cs : List Char) : List Char × List Char :=
  if cs = ['.', '.'] then (cs, [])
  else
    match ((List.range cs.length).filter
        (fun i => decide (1 ≤ i) && decide (cs.getD i ' ' = '.'))).getLast? with
    | some i => (cs.take i, cs.drop (i + 1))
    | none => (cs, [])

/-- The Rust `while left <= right` binary-search loop of
`truncate_filename_to_bytes`, searching the largest prefix length of
`stemChars` whose UTF-16LE encoding fits in `avail` bytes.  The first `Nat`
argument is fuel; `truncateFilenameToBytes` passes enough fuel for the loop
to run to completion (`bsLoop_spec` below proves the characterization). -/
def bsLoop (stemChars : List Char) (avail : Nat) : Nat → Nat → Nat → Nat → Nat
  | 0, _left, _right, best => best
  | fuel + 1, left, right, best =>
    if left ≤ right then
      let mid := (left + right) / 2
      if (utf16leBytes (String.mk (stemChars.take mid))).length ≤ avail then
        bsLoop stemChars avail fuel (mid + 1) right mid
      else
        bsLoop stemChars avail fuel left (mid - 1) best
    else best

/-- The predicate the binary search of `truncate_filename_to_bytes`
decides: the UTF-16LE encoding of the `k`-character prefix of the stem fits
in `avail` bytes. -/
def fitsPrefix (stemChars : List Char) (avail k : Nat) : Prop :=
  (utf16leOfChars (stemChars.take k)).length ≤ avail

/-- Whether a character is one of the separator-like cut points of
`truncate_filename_to_bytes` (`_`, `-`, space, `.`, or a CJK character in
the open range `(0x4E00, 0x9FFF)`). -/
def isCutChar (c : Char) : Bool :=
  c = '_' || c = '-' || c = ' ' || c = '.' ||
    (decide (0x4E00 < c.toNat) && decide (c.toNat < 0x9FFF))

/-- The backward `for i in (0..best_len).rev()` scan of
`truncate_filename_to_bytes` that searches a separator-like boundary; the
argument after `bestLen` is `i + 1` for the index `i` being examined, so the
scan starts at `bestLen` and the loop ending without a break yields
`bestLen` itself. -/
def scanBack (stemChars : List Char) (bestLen : Nat) : Nat → Nat
  | 0 => bestLen
  | i + 1 =>
    if isCutChar (stemChars.getD i ' ') then i
    else if decide (0 < i) &&
        (decide (0x4E00 < (stemChars.getD (i - 1) ' ').toNat) &&
         decide ((stemChars.getD (i - 1) ' ').toNat < 0x9FFF)) &&
        (stemChars.getD i ' ').isAlpha then i
    else scanBack stemChars bestLen i

/-- The stem character list of a display name
(`path.file_stem().and_then(to_str).unwrap_or(filename)`). -/
def stemOf (filename : String) : List Char :=
  (splitStemExt filename.data).1

/-- The `ext_with_dot` string of `truncate_filename_to_bytes`: the dot plus
extension when the name has a non-empty extension, else the empty string. -/
def extWithDotOf (filename : String) : String :=
  if String.mk (splitStemExt filename.data).2 ≠ "" then
    "." ++ String.mk (splitStemExt filename.data).2
  else ""

/-- The `available_for_stem` byte budget of `truncate_filename_to_bytes`:
the total budget minus the UTF-16LE sizes of the extension-with-dot and the
two-character ellipsis, saturating at zero. -/
def availForStem (filename : String) (maxBytes : Nat) : Nat :=
  maxBytes -
    ((utf16leBytes (extWithDotOf filename)).length + (utf16leBytes "..").length)

/-- The `best_len` found by the binary search of
`truncate_filename_to_bytes`. -/
def bestLenOf (filename : String) (maxBytes : Nat) : Nat :=
  bsLoop (stemOf filename) (availForStem filename maxBytes)
    ((stemOf filename).length + 2) 0 (stemOf filename).length 0

/-- `truncate_filename_to_bytes`: returns the input when its UTF-16LE
encoding already fits `maxBytes`; otherwise splits stem and extension,
reserves the extension plus a two-character ellipsis, falls back to a bare
character-count cut when fewer than 4 bytes remain for the stem, and
otherwise binary-searches the largest fitting stem prefix, optionally moved
back to a separator-like boundary when the naive cut ends in an ASCII
letter and the boundary keeps more than half the naive prefix. -/
def truncateFilenameToBytes (filename : String) (maxBytes : Nat) : String :=
  if (utf16leBytes filename).length ≤ maxBytes then filename
  else if availForStem filename maxBytes < 4 then
    String.mk (filename.data.take (maxBytes / 2 - 1))
  else
    let stemL := stemOf filename
    let bestLen := bestLenOf filename maxBytes
    let truncatedStem := stemL.take bestLen
    let finalStem :=
      if 0 < bestLen ∧ bestLen < stemL.length then
        if (stemL.getD (bestLen - 1) ' ').isAlpha then
          let betterPos := scanBack stemL bestLen bestLen
          if bestLen / 2 < betterPos then stemL.take betterPos else truncatedStem
        else truncatedStem
      else truncatedStem
    String.mk finalStem ++ ".." ++ extWithDotOf filename

/-- `slice::windows(pat.len()).position(|w| w == pat)` (and equally Rust
`str::find` at the character level): index of the first occurrence of `pat`
in `hay`, or `none`. -/
def findSubseq {α : Type} [DecidableEq α] : List α → List α → Option Nat
  | hay, pat =>
    if pat.length ≤ hay.length then
      if pat <+: hay then some 0
      else
        match hay with
        | [] => none
        | _ :: t => (findSubseq t pat).map (· + 1)
    else none

/-- `replace_filename_in_emf`: find the hardcoded old file name (UTF-16LE)
in the template; when absent return the template unchanged; when present,
truncate the new name to the old name's byte budget, write it in place and
zero-fill the remainder of the budget.  `none` models the Rust
out-of-bounds index panic that occurs when the (truncated) replacement is
longer than the bytes remaining in the buffer. -/
def replaceFilenameInEmf (emf : List Nat) (oldFilename newFilename : String) :
    Option (List Nat) :=
  let oldU := utf16leBytes oldFilename
  match findSubseq emf oldU with
  | none => some emf
  | some pos =>
    let available := oldU.length
    let finalFilename := truncateFilenameToBytes newFilename available
    let newU := utf16leBytes finalFilename
    if pos + newU.length ≤ emf.length then
      let e1 := emf.take pos ++ newU ++ emf.drop (pos + newU.length)
      if newU.length < available then
        some (e1.take (pos + newU.length)
          ++ List.replicate (available - newU.length) 0
          ++ e1.drop (pos + available))
      else some e1
    else none

/-- Rust `str::replace`: replace every occurrence of `pat` in the subject,
scanning left to right without overlap.  (The source only calls it with the
nonempty patterns `"</Types>"` and `"</Relationships>"`; the `pat ≠ []`
guard keeps the recursion well-founded.) -/
def replaceAll (pat rep : List Char) : List Char → List Char
  | [] => []
  | c :: rest =>
    if h : pat ≠ [] ∧ pat <+: (c :: rest) then
      rep ++ replaceAll pat rep ((c :: rest).drop pat.length)
    else
      c :: replaceAll pat rep rest
  termination_by l => l.length
  decreasing_by
    · have hp : 0 < pat.length := List.length_pos.mpr h.1
      simp only [List.length_drop, List.length_cons]
      omega
    · simp

/-- The literal `Extension="bin"` the source's containment check looks for. -/
def ctBinMarker : List Char := "Extension=\"bin\"".data

/-- The literal `Extension="emf"` the source's containment check looks for. -/
def ctEmfMarker : List Char := "Extension=\"emf\"".data

/-- The closing tag `</Types>` of the content-type registry. -/
def ctTypesClose : List Char := "</Types>".data

/-- The replacement text inserted for the `bin` default content type
(the new `Default` element followed by the restored closing tag). -/
def ctBinDefault : List Char :=
  ("<Default Extension=\"bin\"" ++
    " ContentType=\"application/vnd.openxmlformats-officedocument.oleObject\"/>" ++
    "</Types>").data

/-- The replacement text inserted for the `emf` default content type. -/
def ctEmfDefault : List Char :=
  "<Default Extension=\"emf\" ContentType=\"image/x-emf\"/></Types>".data

/-- First half of `add_ole_content_types`: append the `bin` default unless
the registry already mentions `Extension="bin"`. -/
def ctStepBin (s : List Char) : List Char :=
  if ctBinMarker <:+: s then s else replaceAll ctTypesClose ctBinDefault s

/-- Second half of `add_ole_content_types`: append the `emf` default unless
the registry (after the `bin` step) already mentions `Extension="emf"`. -/
def ctStepEmf (s : List Char) : List Char :=
  if ctEmfMarker <:+: s then s else replaceAll ctTypesClose ctEmfDefault s

/-- `add_ole_content_types` (the `Result` wrapper of the source never
fails, so the model returns the string directly). -/
def addOleContentTypes (content_types_xml : String) : String :=
  String.mk (ctStepEmf (ctStepBin content_types_xml.data))

/-- `usize::MAX`, the bound above which `parse::<usize>()` fails in
`get_next_relationship_id`. -/
def usizeMax : Nat := 2 ^ 64 - 1

/-- Numeric value of a digit run. -/
def natOfDigits (ds : List Char) : Nat :=
  ds.foldl (fun acc c => acc * 10 + (c.toNat - '0'.toNat)) 0

/-- The numbers matched by the regex `Id="rId(\d+)"` over the relationship
table, scanning every position: at each occurrence of the literal
`Id="rId`, the maximal following digit run, terminated by `"`, parsed as
`usize` (values above `usize::MAX` fail to parse and are skipped, as in
the source). -/
def extractRIdNumbers : List Char → List Nat
  | [] => []
  | c :: rest =>
    let s := c :: rest
    if "Id=\"rId".data <+: s then
      let after := s.drop 7
      let digits := after.takeWhile Char.isDigit
      if digits ≠ [] ∧ (after.drop digits.length).take 1 = ['"'] ∧
          natOfDigits digits ≤ usizeMax then
        natOfDigits digits :: extractRIdNumbers rest
      else extractRIdNumbers rest
    else extractRIdNumbers rest

/-- `get_next_relationship_id`: one plus the maximum `n` over all
`Id="rIdn"` occurrences in the relationship table (`0` when there are
none). -/
def getNextRelationshipId (rels_xml : String) : Nat :=
  (extractRIdNumbers rels_xml.data).foldl Nat.max 0 + 1

/-- The object-stream relationship id string `rId(base + 2*index)` as
formatted by `add_ole_relationships_to_rels`. -/
def relsOleRid (startRid index : Nat) : String :=
  "rId" ++ toString (startRid + index * 2)

/-- The icon-image relationship id string `rId(base + 2*index + 1)` as
formatted by `add_ole_relationships_to_rels`. -/
def relsImgRid (startRid index : Nat) : String :=
  "rId" ++ toString (startRid + index * 2 + 1)

/-- The pair of relationship entries appended for attachment `index` by
`add_ole_relationships_to_rels`. -/
def oleRelEntryPair (startRid index : Nat) : String :=
  "<Relationship " ++ ("Id=\"" ++ relsOleRid startRid index ++ "\"") ++
    " Type=\"http://schemas.openxmlformats.org/officeDocument/2006/relationships/oleObject\" Target=\"embeddings/oleObject" ++
    toString (index + 1) ++ ".bin\"/>" ++
  "<Relationship " ++ ("Id=\"" ++ relsImgRid startRid index ++ "\"") ++
    " Type=\"http://schemas.openxmlformats.org/officeDocument/2006/relationships/image\" Target=\"media/image" ++
    toString (index + 1) ++ ".emf\"/>"

/-- The concatenated `new_rels` string of `add_ole_relationships_to_rels`
(the loop only uses each file's enumeration index). -/
def oleRelEntries (startRid : Nat) (files : List EmbeddedFile) : String :=
  String.join ((List.range files.length).map (oleRelEntryPair startRid))

/-- The closing tag `</Relationships>` of the relationship table. -/
def relsClose : List Char := "</Relationships>".data

/-- `add_ole_relationships_to_rels`: insert the new relationship entries
before (every occurrence of) the closing tag, via Rust `str::replace`. -/
def addOleRelationshipsToRels (rels_xml : String) (files : List EmbeddedFile)
    (start_rid : Nat) : String :=
  String.mk (replaceAll relsClose
    ((oleRelEntries start_rid files).data ++ relsClose) rels_xml.data)

/-- Accumulator loop for `hexDigits` (fuel-driven; the initial fuel `m`
always suffices since `m / 16 < m`). -/
def hexGo : Nat → Nat → List Char → List Char
  | 0, _, acc => acc
  | fuel + 1, m, acc =>
    if m = 0 then acc
    else hexGo fuel (m / 16) ("0123456789ABCDEF".data.getD (m % 16) '0' :: acc)

/-- Uppercase base-16 digits of `n`, at least one digit. -/
def hexDigits (n : Nat) : List Char :=
  if n = 0 then ['0'] else hexGo n n []

/-- `format!("{:08X}", n)`: uppercase hexadecimal, zero-padded to width 8. -/
def hex08 (n : Nat) : String :=
  let ds := hexDigits n
  String.mk (List.replicate (8 - ds.length) '0' ++ ds)

/-- The object-stream relationship id string as formatted by
`add_ole_objects_to_document_xml` (`rId{start_rid + index * 2}`). -/
def docOleRid (startRid index : Nat) : String :=
  "rId" ++ toString (startRid + index * 2)

/-- The icon-image relationship id string as formatted by
`add_ole_objects_to_document_xml` (`rId{start_rid + index * 2 + 1}`). -/
def docImgRid (startRid index : Nat) : String :=
  "rId" ++ toString (startRid + index * 2 + 1)

/-- The body-markup fragment `add_ole_objects_to_document_xml` synthesizes
for the attachment with global enumeration `index`: a paragraph holding the
icon image shape (referencing the image relationship id) wrapped in an
`o:OLEObject` element (referencing the object relationship id). -/
def oleObjectFragment (startRid index : Nat) : String :=
  "\n<w:p w14:paraId=\"" ++ hex08 (0x10000000 + index) ++
  "\"><w:pPr><w:rPr><w:rFonts w:hint=\"default\"/><w:lang w:val=\"en-US\"/></w:rPr></w:pPr><w:r><w:rPr><w:rFonts w:hint=\"default\"/><w:lang w:val=\"en-US\"/></w:rPr><w:object><v:shape id=\"" ++
  ("_x0000_i" ++ toString (1025 + index)) ++
  "\" o:spt=\"75\" type=\"#_x0000_t75\" style=\"height:65.25pt;width:72.4pt;\" o:ole=\"t\" filled=\"f\" o:preferrelative=\"t\" stroked=\"f\" coordsize=\"21600,21600\"><v:fill on=\"f\" focussize=\"0,0\"/><v:stroke on=\"f\"/><v:imagedata " ++
  ("r:id=\"" ++ docImgRid startRid index ++ "\"") ++
  " o:title=\"\"/><o:lock v:ext=\"edit\" aspectratio=\"t\"/><w10:wrap type=\"none\"/><w10:anchorlock/></v:shape><o:OLEObject Type=\"Embed\" ProgID=\"Package\" ShapeID=\"" ++
  ("_x0000_i" ++ toString (1025 + index)) ++
  "\" DrawAspect=\"Icon\" ObjectID=\"" ++ ("_146807572" ++ toString index) ++ "\" " ++
  ("r:id=\"" ++ docOleRid startRid index ++ "\"") ++
  "><o:LockedField>false</o:LockedField></o:OLEObject></w:object></w:r></w:p>\n"

/-- The immutable icon template assets bundled by `include_bytes!` in
`get_default_emf_icon`.  The asset files themselves are not part of the
source tree, so the byte buffers are carried as an explicit record and the
theorems quantify over them. -/
structure IconAssets where
  icon_video : List Nat
  icon_pdf : List Nat
  icon_excel : List Nat
  icon_zip : List Nat
  ole_package_icon : List Nat
  deriving Repr, DecidableEq

/-- `get_default_emf_icon`: pick the template and hardcoded placeholder
name for the file-type class and patch the real file name in; the Image
class and the unclassified `Other` class return the generic package icon
untouched. -/
def getDefaultEmfIcon (assets : IconAssets) (file_type : FileType)
    (filename : String) : Option (List Nat) :=
  match file_type with
  | .Video => replaceFilenameInEmf assets.icon_video "qqer的抖音_.mp4" filename
  | .PDF =>
    replaceFilenameInEmf assets.icon_pdf
      "0_1深孔刻蚀，可助300层3D NAND制造 - 今日头条.pdf" filename
  | .Excel => replaceFilenameInEmf assets.icon_excel "20_074644.xlsx" filename
  | .Document => replaceFilenameInEmf assets.icon_excel "20_074644.xlsx" filename
  | .ZIP => replaceFilenameInEmf assets.icon_zip "ZL1.zip" filename
  | .Image => some assets.ole_package_icon
  | .Other _ => some assets.ole_package_icon

/-- Append `v` to the group of `key` in an association list of groups,
creating the group at the end when absent.  Models a `HashMap` entry
`or_insert_with(Vec::new).push(...)` update, with groups kept in
first-insertion order. -/
def insertGroup (m : List (String × List (Nat × EmbeddedFile))) (key : String)
    (v : Nat × EmbeddedFile) : List (String × List (Nat × EmbeddedFile)) :=
  match m with
  | [] => [(key, [v])]
  | (k, vs) :: rest =>
    if k = key then (k, vs ++ [v]) :: rest
    else (k, vs) :: insertGroup rest key v

/-- The `files_by_zip` grouping of `add_ole_objects_to_document_xml`:
enumerated attachments grouped by `zip_id`, each keeping its original
global index.  The source iterates a `HashMap` whose key order is
unspecified; the model fixes first-occurrence order (the claims proved
below do not depend on the group order). -/
def groupByZipId (files : List EmbeddedFile) :
    List (String × List (Nat × EmbeddedFile)) :=
  files.enum.foldl (fun m iv => insertGroup m iv.2.zip_id iv) []

/-- One chapter-insertion step of `add_ole_objects_to_document_xml`: find
the marker text, then the first closing paragraph tag `</w:p>` after it,
and insert the fragment right after that tag; when either search fails the
body is left unchanged. -/
def insertAfterParagraph (doc marker objectsXml : List Char) : List Char :=
  match findSubseq doc marker with
  | none => doc
  | some pos =>
    match findSubseq (doc.drop pos) "</w:p>".data with
    | none => doc
    | some endPos =>
      let insertPos := pos + endPos + "</w:p>".length
      doc.take insertPos ++ objectsXml ++ doc.drop insertPos

/-- The per-chapter body of the `for (zip_id, files) in files_by_zip`
loop of `add_ole_objects_to_document_xml`: build the chapter's
concatenated fragments and insert them after its marker paragraph. -/
def chapterInsertStep (start_rid : Nat) (res : List Char)
    (g : String × List (Nat × EmbeddedFile)) : List Char :=
  insertAfterParagraph res ("EMBED_MARKER_" ++ g.1).data
    (String.join (g.2.map (fun iv => oleObjectFragment start_rid iv.1))).data

/-- `add_ole_objects_to_document_xml`: group the attachments by chapter,
synthesize each chapter's concatenated fragments, and insert them after
the chapter's marker paragraph; the source's `Result` is always `Ok`. -/
def addOleObjectsToDocumentXml (document_xml : String)
    (files : List EmbeddedFile) (start_rid : Nat) : Except String String :=
  .ok (String.mk ((groupByZipId files).foldl (chapterInsertStep start_rid)
    document_xml.data))

/-- UTF-8 encoding of one Unicode scalar value (`char::encode_utf8`). -/
def utf8EncodeChar (c : Char) : List Nat :=
  let n := c.toNat
  if n < 0x80 then [n]
  else if n < 0x800 then [0xC0 + n / 64, 0x80 + n % 64]
  else if n < 0x10000 then
    [0xE0 + n / 4096, 0x80 + n / 64 % 64, 0x80 + n % 64]
  else
    [0xF0 + n / 262144, 0x80 + n / 4096 % 64, 0x80 + n / 64 % 64,
     0x80 + n % 64]

/-- UTF-8 byte serialization of a string (`str::as_bytes`). -/
def strBytes (s : String) : List Nat := s.data.flatMap utf8EncodeChar

/-- Whether a byte is a UTF-8 continuation byte `10xxxxxx`. -/
def isCont (b : Nat) : Bool := decide (0x80 ≤ b) && decide (b < 0xC0)

/-- Strict UTF-8 decoding of a byte list, as `read_to_string` validates
it: rejects stray or missing continuation bytes, overlong encodings,
surrogate code points and values beyond `0x10FFFF`. -/
def utf8Decode : List Nat → Option (List Char)
  | [] => some []
  | b1 :: rest =>
    if b1 < 0x80 then (utf8Decode rest).map (Char.ofNat b1 :: ·)
    else if b1 < 0xC2 then none
    else if b1 < 0xE0 then
      match rest with
      | b2 :: rest2 =>
        if isCont b2 then
          (utf8Decode rest2).map
            (Char.ofNat ((b1 - 0xC0) * 64 + (b2 - 0x80)) :: ·)
        else none
      | _ => none
    else if b1 < 0xF0 then
      match rest with
      | b2 :: b3 :: rest3 =>
        if isCont b2 && isCont b3 then
          let cp := (b1 - 0xE0) * 4096 + (b2 - 0x80) * 64 + (b3 - 0x80)
          if decide (0x800 ≤ cp) &&
              !(decide (0xD800 ≤ cp) && decide (cp < 0xE000)) then
            (utf8Decode rest3).map (Char.ofNat cp :: ·)
          else none
        else none
      | _ => none
    else if b1 < 0xF5 then
      match rest with
      | b2 :: b3 :: b4 :: rest4 =>
        if isCont b2 && isCont b3 && isCont b4 then
          let cp := (b1 - 0xF0) * 262144 + (b2 - 0x80) * 4096 +
            (b3 - 0x80) * 64 + (b4 - 0x80)
          if decide (0x10000 ≤ cp) && decide (cp < 0x110000) then
            (utf8Decode rest4).map (Char.ofNat cp :: ·)
          else none
        else none
      | _ => none
    else none

/-- The three package parts `embed_ole_objects_into_docx` rewrites. -/
def filesToModify : List String :=
  ["word/document.xml", "word/_rels/document.xml.rels", "[Content_Types].xml"]

/-- The host document bytes as seen by `ZipArchive::new`: either an
unparseable blob or a parsed archive of named parts.  The ZIP container
encoding itself is external library code; the model works at the
part level. -/
inductive DocxBytes where
  | raw (blob : List Nat)
  | zip (entries : List (String × List Nat))
  deriving Repr, DecidableEq

/-- `read_file_from_zip_archive`: look a part up by name and decode its
bytes with `read_to_string`, failing when the part is missing or its
content is not valid UTF-8. -/
def readFileFromZipArchive (entries : List (String × List Nat))
    (path : String) : Except String String :=
  match entries.lookup path with
  | some bytes =>
    match utf8Decode bytes with
    | some cs => .ok (String.mk cs)
    | none => .error ("stream did not contain valid UTF-8: " ++ path)
  | none => .error ("无法找到文件: " ++ path)

/-- The bytes written for one compound container: the external `cfb`
serialization is modelled as the concatenation of the named streams (no
claim inspects these container bytes; C1 is stated on the stream itself). -/
def olePackageBytes (f : EmbeddedFile) : List Nat :=
  (createOlePackage f).foldr (fun st acc => strBytes st.1 ++ [0] ++ st.2 ++ acc) []

/-- The per-attachment binary parts written by step 5 of
`embed_ole_objects_into_docx`: the compound container under
`word/embeddings/oleObject{i+1}.bin` and the patched icon under
`word/media/image{i+1}.emf`, in enumeration order.  `none` models the
Rust panic of the icon patcher propagating out of the loop. -/
def buildNewParts (assets : IconAssets) :
    List (Nat × EmbeddedFile) → Option (List (String × List Nat))
  | [] => some []
  | (index, f) :: rest =>
    match getDefaultEmfIcon assets f.file_type f.name with
    | none => none
    | some icon =>
      match buildNewParts assets rest with
      | none => none
      | some parts =>
        some (("word/embeddings/oleObject" ++ toString (index + 1) ++ ".bin",
            olePackageBytes f)
          :: ("word/media/image" ++ toString (index + 1) ++ ".emf", icon)
          :: parts)

/-- `embed_ole_objects_into_docx`: open the host archive, copy every part
except the three to rewrite, read those three (failing when one is
missing), allocate the base relationship id, write the per-attachment
binary parts, and rewrite body markup, relationship table and content-type
registry.  The outer `Option` models a Rust panic (icon patcher
out-of-bounds); the `Except` layer models the `Result` the function
returns. -/
def embedOleObjectsIntoDocx (assets : IconAssets) (docx : DocxBytes)
    (files : List EmbeddedFile) :
    Option (Except String (List (String × List Nat))) :=
  match docx with
  | .raw _ => some (.error "invalid Zip archive")
  | .zip entries =>
    let copied := entries.filter (fun e => !(filesToModify.contains e.1))
    match readFileFromZipArchive entries "word/document.xml" with
    | .error e => some (.error e)
    | .ok document_xml =>
      match readFileFromZipArchive entries "word/_rels/document.xml.rels" with
      | .error e => some (.error e)
      | .ok rels_xml =>
        match readFileFromZipArchive entries "[Content_Types].xml" with
        | .error e => some (.error e)
        | .ok content_types_xml =>
          let next_rid := getNextRelationshipId rels_xml
          match buildNewParts assets files.enum with
          | none => none
          | some newParts =>
            match addOleObjectsToDocumentXml document_xml files next_rid with
            | .error e => some (.error e)
            | .ok modified_document =>
              some (.ok (copied ++ newParts ++
                [("word/document.xml", strBytes modified_document),
                 ("word/_rels/document.xml.rels",
                   strBytes (addOleRelationshipsToRels rels_xml files next_rid)),
                 ("[Content_Types].xml",
                   strBytes (addOleContentTypes content_types_xml))]))

/-- `build_docx_with_embeddings` after the base document has been packed
to bytes: return the base bytes when there is nothing to embed, and fall
back to the base bytes when `embed_ole_objects_into_docx` reports an
error; `none` again models a propagating panic. -/
def buildDocxWithEmbeddings (assets : IconAssets) (base : DocxBytes)
    (embedded_files : List EmbeddedFile) : Option DocxBytes :=
  if embedded_files.isEmpty then some base
  else
    match embedOleObjectsIntoDocx assets base embedded_files with
    | some (.ok entries) => some (.zip entries)
    | some (.error _) => some base
    | none => none

/-- The filesystem as `create_embedded_file` sees it: `Path::exists`,
`fs::metadata(..).len()` and `fs::read`. -/
structure FsModel where
  pathExists : String → Bool
  metadata : String → Option Nat
  readFile : String → Option (List Nat)

/-- The 100 MiB per-attachment cap of `create_embedded_file`. -/
def MAX_FILE_SIZE : Nat := 100 * 1024 * 1024

/-- `Path::file_name` of a path, as a string: the part after the last
path separator. -/
def fileNameOf (path : String) : String :=
  String.mk ((path.data.reverse.takeWhile (fun c => c ≠ '/' ∧ c ≠ '\\')).reverse)

/-- `Path::extension` on a bare file name (`none` when there is no dot, or
the only dot leads the name). -/
def rustExtension (cs : List Char) : Option (List Char) :=
  if cs = ['.', '.'] then none
  else
    match ((List.range cs.length).filter
        (fun i => decide (1 ≤ i) && decide (cs.getD i ' ' = '.'))).getLast? with
    | some i => some (cs.drop (i + 1))
    | none => none

/-- `detect_file_type`: classify by (ASCII-lowercased) filename suffix;
the Rust code lowercases with full Unicode rules, which agrees with this
model on ASCII names. -/
def detectFileType (filename : String) : FileType :=
  let l := String.mk (filename.data.map Char.toLower)
  if l.endsWith ".mp4" || l.endsWith ".avi" || l.endsWith ".mov" ||
      l.endsWith ".wmv" || l.endsWith ".mkv" || l.endsWith ".flv" then .Video
  else if l.endsWith ".pdf" then .PDF
  else if l.endsWith ".jpg" || l.endsWith ".jpeg" || l.endsWith ".png" ||
      l.endsWith ".gif" || l.endsWith ".bmp" || l.endsWith ".webp" then .Image
  else if l.endsWith ".zip" then .ZIP
  else if l.endsWith ".xls" || l.endsWith ".xlsx" then .Excel
  else if l.endsWith ".doc" || l.endsWith ".docx" || l.endsWith ".txt" ||
      l.endsWith ".rtf" then .Document
  else
    match rustExtension filename.data with
    | some ext => .Other (String.mk ext)
    | none => .Other "unknown"

/-- `get_content_type`: MIME type by (lowercased) filename suffix. -/
def getContentType (filename : String) : String :=
  let l := String.mk (filename.data.map Char.toLower)
  if l.endsWith ".pdf" then "application/pdf"
  else if l.endsWith ".mp4" then "video/mp4"
  else if l.endsWith ".avi" then "video/x-msvideo"
  else if l.endsWith ".mov" then "video/quicktime"
  else if l.endsWith ".wmv" then "video/x-ms-wmv"
  else if l.endsWith ".mkv" then "video/x-matroska"
  else if l.endsWith ".flv" then "video/x-flv"
  else if l.endsWith ".jpg" || l.endsWith ".jpeg" then "image/jpeg"
  else if l.endsWith ".png" then "image/png"
  else if l.endsWith ".gif" then "image/gif"
  else if l.endsWith ".bmp" then "image/bmp"
  else if l.endsWith ".webp" then "image/webp"
  else if l.endsWith ".zip" then "application/zip"
  else if l.endsWith ".xls" then "application/vnd.ms-excel"
  else if l.endsWith ".xlsx" then
    "application/vnd.openxmlformats-officedocument.spreadsheetml.sheet"
  else if l.endsWith ".doc" then "application/msword"
  else if l.endsWith ".docx" then
    "application/vnd.openxmlformats-officedocument.wordprocessingml.document"
  else if l.endsWith ".txt" then "text/plain"
  else if l.endsWith ".rtf" then "application/rtf"
  else "application/octet-stream"

/-- `create_embedded_file`: read the metadata, reject files above the
100 MiB cap before any read, then read the payload and build the record.
The `uuid` argument carries the random id suffix, which no claim
inspects. -/
def createEmbeddedFile (fs : FsModel) (uuid path zip_id : String) :
    Except String EmbeddedFile :=
  match fs.metadata path with
  | none => .error ("无法获取文件元数据: " ++ path)
  | some file_size =>
    if MAX_FILE_SIZE < file_size then
      .error ("文件过大，跳过嵌入: " ++ fileNameOf path)
    else
      match fs.readFile path with
      | none => .error ("Failed to read file: " ++ path)
      | some data =>
        .ok { id := "embed_" ++ uuid, name := fileNameOf path, path := path,
              data := data, content_type := getContentType (fileNameOf path),
              file_type := detectFileType (fileNameOf path), zip_id := zip_id }

/-- The per-chapter embedding batch loop of `export_word`: each path that
exists is passed to `create_embedded_file`; successes are pushed, errors
are logged and skipped, and the batch continues (`uuids i` supplies the
random id for the `i`-th position). -/
def collectEmbeddedFiles (fs : FsModel) (uuids : Nat → String)
    (zip_id : String) : List String → Nat → List EmbeddedFile
  | [], _ => []
  | p :: rest, i =>
    if fs.pathExists p then
      match createEmbeddedFile fs (uuids i) p zip_id with
      | .ok f => f :: collectEmbeddedFiles fs uuids zip_id rest (i + 1)
      | .error _ => collectEmbeddedFiles fs uuids zip_id rest (i + 1)
    else collectEmbeddedFiles fs uuids zip_id rest (i + 1)

end ArchiveBox

namespace ArchiveBox

theorem encodeGBK_append (a b : String) :
    encodeGBK (a ++ b) = encodeGBK a ++ encodeGBK b := by
  simp [encodeGBK, String.data_append]

theorem encodeGBK_zero_free {s : String}
    (h : (0 : Nat) ∉ encodeGBK s) (t : String) :
    (0 : Nat) ∉ encodeGBK (t ++ s) ↔ (0 : Nat) ∉ encodeGBK t := by
  rw [encodeGBK_append]
  simp only [List.mem_append]
  tauto

theorem leU32_u32le {n : Nat} (h : n < 2 ^ 32) : leU32 (u32le n) = n := by
  simp only [u32le, leU32]
  omega

theorem u32le_length (n : Nat) : (u32le n).length = 4 := rfl

/-- `splitAtZero` inverts `xs ++ [0] ++ rest` when `xs` is zero-free. -/
theorem splitAtZero_append {xs : List Nat} (h : (0 : Nat) ∉ xs) (rest : List Nat) :
    splitAtZero (xs ++ 0 :: rest) = some (xs, rest) := by
  induction xs with
  | nil => simp [splitAtZero]
  | cons b t ih =>
    have hb : b ≠ 0 := by
      intro hb0
      exact h (by simp [hb0])
    have ht : (0 : Nat) ∉ t := fun hm => h (List.mem_cons_of_mem _ hm)
    simp [splitAtZero, hb, ih ht]

theorem take_append_of_length {α : Type} {l₁ : List α} (l₂ : List α) {n : Nat}
    (h : l₁.length = n) : (l₁ ++ l₂).take n = l₁ := by
  subst h
  simp

theorem drop_append_of_length {α : Type} {l₁ : List α} (l₂ : List α) {n : Nat}
    (h : l₁.length = n) : (l₁ ++ l₂).drop n = l₂ := by
  subst h
  simp

/-- C1.  The `Ole10Native` stream built by `create_ole_package` ends with the
4-byte little-endian payload length followed by the payload bytes verbatim,
and decoding the stream with the inverse of the documented layout recovers
the payload byte-for-byte.  (The hypotheses record that the payload fits a
`u32` length field, that the GBK-encoded name contains no NUL byte, and that
the synthetic temporary path also fits a `u32` length field — all true of
every record the engine actually builds.) -/
theorem ole10Native_roundtrip (name : String) (data : List Nat)
    (hlen : data.length < 2 ^ 32)
    (hname : (0 : Nat) ∉ encodeGBK name)
    (htemp : (encodeGBK ("C:\\Users\\Public\\" ++ name)).length + 1 < 2 ^ 32) :
    (∃ pre, createOle10NativeData name data =
        pre ++ u32le data.length ++ data) ∧
    parseOle10Native (createOle10NativeData name data) = some data := by
  set F := encodeGBK name with hF
  set P := encodeGBK ("C:/" ++ name) with hP
  set T := encodeGBK ("C:\\Users\\Public\\" ++ name) with hT
  have hPz : (0 : Nat) ∉ P := by
    rw [hP, (encodeGBK_zero_free hname "C:/")]
    decide
  have hstream : createOle10NativeData name data =
      u32le data.length ++ ([0x02, 0x00] ++ (F ++ (0 :: (P ++ (0 ::
        ([0, 0, 0x03, 0x00] ++ (u32le (T.length + 1) ++ ((T ++ [0]) ++
          (u32le data.length ++ data))))))))) := by
    simp [createOle10NativeData, ← hF, ← hP, ← hT]
  refine ⟨⟨u32le data.length ++ ([0x02, 0x00] ++ (F ++ (0 :: (P ++ (0 ::
      ([0, 0, 0x03, 0x00] ++ (u32le (T.length + 1) ++ (T ++ [0])))))))), ?_⟩, ?_⟩
  · rw [hstream]
    simp
  · rw [hstream]
    unfold parseOle10Native
    simp only []
    rw [take_append_of_length _ (u32le_length _),
      drop_append_of_length _ (u32le_length _),
      take_append_of_length _ (show ([0x02, 0x00] : List Nat).length = 2 from rfl),
      drop_append_of_length _ (show ([0x02, 0x00] : List Nat).length = 2 from rfl)]
    simp only [if_pos rfl]
    rw [splitAtZero_append hname]
    simp only []
    rw [splitAtZero_append hPz]
    simp only []
    rw [take_append_of_length _
        (show ([0, 0, 0x03, 0x00] : List Nat).length = 4 from rfl),
      drop_append_of_length _
        (show ([0, 0, 0x03, 0x00] : List Nat).length = 4 from rfl)]
    simp only [if_pos rfl]
    rw [take_append_of_length _ (u32le_length _),
      drop_append_of_length _ (u32le_length _),
      leU32_u32le htemp,
      drop_append_of_length (u32le data.length ++ data)
        (show (T ++ [0]).length = T.length + 1 by simp),
      take_append_of_length _ (u32le_length _),
      drop_append_of_length _ (u32le_length _),
      leU32_u32le hlen]
    simp

theorem utf16leOfChars_append (a b : List Char) :
    utf16leOfChars (a ++ b) = utf16leOfChars a ++ utf16leOfChars b := by
  simp [utf16leOfChars]

theorem utf16le_take_length_le (m : List Char) (j : Nat) :
    (utf16leOfChars (m.take j)).length ≤ (utf16leOfChars m).length := by
  conv_rhs => rw [← List.take_append_drop j m]
  rw [utf16leOfChars_append, List.length_append]
  exact Nat.le_add_right _ _

theorem fitsPrefix_mono (cs : List Char) (avail : Nat) {j k : Nat} (hjk : j ≤ k)
    (h : fitsPrefix cs avail k) : fitsPrefix cs avail j := by
  unfold fitsPrefix at h ⊢
  refine le_trans ?_ h
  have heq : cs.take j = (cs.take k).take j := by
    rw [List.take_take, Nat.min_eq_left hjk]
  rw [heq]
  exact utf16le_take_length_le _ _

theorem fitsPrefix_zero (cs : List Char) (avail : Nat) : fitsPrefix cs avail 0 := by
  simp [fitsPrefix, utf16leOfChars]

theorem findSubseq_some {α : Type} [DecidableEq α] {hay pat : List α} {pos : Nat}
    (h : findSubseq hay pat = some pos) :
    pos + pat.length ≤ hay.length ∧ pat <+: hay.drop pos := by
  induction hay generalizing pos with
  | nil =>
    rw [findSubseq] at h
    by_cases hlen : pat.length ≤ ([] : List α).length
    · rw [if_pos hlen] at h
      have hpat : pat = [] := List.eq_nil_of_length_eq_zero (Nat.le_zero.mp hlen)
      subst hpat
      simp at h
      subst h
      simp
    · rw [if_neg hlen] at h
      exact absurd h (by simp)
  | cons a t ih =>
    rw [findSubseq] at h
    by_cases hlen : pat.length ≤ (a :: t).length
    · rw [if_pos hlen] at h
      by_cases hpre : pat <+: (a :: t)
      · rw [if_pos hpre] at h
        have hpos : pos = 0 := by
          simpa using h.symm
        subst hpos
        exact ⟨by simpa using hlen, by simpa using hpre⟩
      · rw [if_neg hpre] at h
        simp only [Option.map_eq_some'] at h
        obtain ⟨q, hq, hqpos⟩ := h
        obtain ⟨h1, h2⟩ := ih hq
        subst hqpos
        constructor
        · simpa [Nat.add_assoc, Nat.add_comm, Nat.add_left_comm] using
            Nat.add_le_add_right h1 1
        · simpa using h2
    · rw [if_neg hlen] at h
      exact absurd h (by simp)

theorem bsLoop_spec (cs : List Char) (avail : Nat) :
    ∀ fuel left right best,
      right + 2 ≤ fuel + left →
      best ≤ cs.length → right ≤ cs.length →
      fitsPrefix cs avail best →
      (∀ k, k ≤ cs.length → fitsPrefix cs avail k → (k ≤ best ∨ left ≤ k)) →
      (∀ k, k ≤ cs.length → right < k → ¬ fitsPrefix cs avail k) →
      fitsPrefix cs avail (bsLoop cs avail fuel left right best) ∧
        bsLoop cs avail fuel left right best ≤ cs.length ∧
        ∀ k, k ≤ cs.length → fitsPrefix cs avail k →
          k ≤ bsLoop cs avail fuel left right best := by
  intro fuel
  induction fuel with
  | zero =>
    intro left right best hfuel hbest hright hfit hB hC
    refine ⟨hfit, hbest, ?_⟩
    intro k hk hfk
    rcases hB k hk hfk with h | h
    · exact h
    · exact absurd hfk (hC k hk (by omega))
  | succ fuel ih =>
    intro left right best hfuel hbest hright hfit hB hC
    rw [bsLoop]
    by_cases hlr : left ≤ right
    · rw [if_pos hlr]
      simp only []
      by_cases hmid : (utf16leBytes (String.mk
          (cs.take ((left + right) / 2)))).length ≤ avail
      · rw [if_pos hmid]
        refine ih ((left + right) / 2 + 1) right ((left + right) / 2)
          (by omega) (by omega) hright hmid ?_ hC
        intro k _ _
        omega
      · rw [if_neg hmid]
        have hmid' : ¬ fitsPrefix cs avail ((left + right) / 2) := hmid
        have hmid1 : 1 ≤ (left + right) / 2 := by
          by_contra hc
          exact hmid' (by
            have h0 : (left + right) / 2 = 0 := by omega
            rw [h0]
            exact fitsPrefix_zero cs avail)
        refine ih left ((left + right) / 2 - 1) best (by omega) hbest
          (by omega) hfit hB ?_
        intro k hk hklt hfk
        exact hmid' (fitsPrefix_mono cs avail (by omega) hfk)
    · rw [if_neg hlr]
      refine ⟨hfit, hbest, ?_⟩
      intro k hk hfk
      rcases hB k hk hfk with h | h
      · exact h
      · exact absurd hfk (hC k hk (by omega))

theorem scanBack_le (cs : List Char) (bl : Nat) :
    ∀ c, c ≤ bl → scanBack cs bl c ≤ bl := by
  intro c
  induction c with
  | zero => intro _; rw [scanBack]
  | succ i ih =>
    intro hc
    rw [scanBack]
    by_cases h1 : isCutChar (cs.getD i ' ') = true
    · rw [if_pos h1]
      omega
    · rw [if_neg h1]
      by_cases h2 : (decide (0 < i) &&
          (decide (0x4E00 < (cs.getD (i - 1) ' ').toNat) &&
            decide ((cs.getD (i - 1) ' ').toNat < 0x9FFF)) &&
          (cs.getD i ' ').isAlpha) = true
      · rw [if_pos h2]
        omega
      · rw [if_neg h2]
        exact ih (by omega)

theorem utf16leBytes_append (a b : String) :
    utf16leBytes (a ++ b) = utf16leBytes a ++ utf16leBytes b := by
  rw [utf16leBytes, utf16leBytes, utf16leBytes, ← utf16leOfChars_append]
  rfl

/-- Branch equation for `truncateFilenameToBytes` in the non-fitting,
enough-stem-budget case. -/
theorem truncate_notfit_eq (filename : String) (maxBytes : Nat)
    (hbig : maxBytes < (utf16leBytes filename).length)
    (havail : 4 ≤ availForStem filename maxBytes) :
    truncateFilenameToBytes filename maxBytes =
      String.mk (if 0 < bestLenOf filename maxBytes ∧
          bestLenOf filename maxBytes < (stemOf filename).length then
        if ((stemOf filename).getD (bestLenOf filename maxBytes - 1) ' ').isAlpha then
          if bestLenOf filename maxBytes / 2 <
              scanBack (stemOf filename) (bestLenOf filename maxBytes)
                (bestLenOf filename maxBytes) then
            (stemOf filename).take (scanBack (stemOf filename)
              (bestLenOf filename maxBytes) (bestLenOf filename maxBytes))
          else (stemOf filename).take (bestLenOf filename maxBytes)
        else (stemOf filename).take (bestLenOf filename maxBytes)
      else (stemOf filename).take (bestLenOf filename maxBytes)) ++ ".." ++
        extWithDotOf filename := by
  rw [truncateFilenameToBytes, if_neg (by omega), if_neg (by omega)]

/-- The characterization of `bestLenOf` through `bsLoop_spec`: it fits the
stem budget, is at most the stem length, and dominates every fitting
prefix length. -/
theorem bestLenOf_spec (filename : String) (maxBytes : Nat) :
    fitsPrefix (stemOf filename) (availForStem filename maxBytes)
        (bestLenOf filename maxBytes) ∧
      bestLenOf filename maxBytes ≤ (stemOf filename).length ∧
      ∀ j, j ≤ (stemOf filename).length →
        fitsPrefix (stemOf filename) (availForStem filename maxBytes) j →
        j ≤ bestLenOf filename maxBytes := by
  exact bsLoop_spec (stemOf filename) (availForStem filename maxBytes)
    ((stemOf filename).length + 2) 0 (stemOf filename).length 0
    (by omega) (Nat.zero_le _) (le_refl _) (fitsPrefix_zero _ _)
    (fun k _ _ => Or.inr (Nat.zero_le _))
    (fun k hk hlt _ => absurd hk (by omega))

/-- C7 (amended).  When the display name's UTF-16LE encoding exceeds the
budget and, after reserving the extension and the two-character ellipsis,
at least 4 bytes remain for the stem, the truncated name is a stem prefix
of `k` characters followed by the ellipsis and the original extension,
where `k` is the binary-searched largest fitting prefix length or a
separator-like boundary kept only when it exceeds half that length; the
result's UTF-16LE encoding fits the budget and ends with the original
extension. -/
theorem truncateFilename_spec (filename : String) (maxBytes : Nat)
    (hbig : maxBytes < (utf16leBytes filename).length)
    (havail : 4 ≤ availForStem filename maxBytes) :
    ∃ k,
      truncateFilenameToBytes filename maxBytes =
        String.mk ((stemOf filename).take k) ++ ".." ++ extWithDotOf filename ∧
      (k = bestLenOf filename maxBytes ∨
        (bestLenOf filename maxBytes / 2 < k ∧ k ≤ bestLenOf filename maxBytes)) ∧
      fitsPrefix (stemOf filename) (availForStem filename maxBytes)
        (bestLenOf filename maxBytes) ∧
      (∀ j, j ≤ (stemOf filename).length →
        fitsPrefix (stemOf filename) (availForStem filename maxBytes) j →
        j ≤ bestLenOf filename maxBytes) ∧
      (utf16leBytes (truncateFilenameToBytes filename maxBytes)).length ≤ maxBytes ∧
      (extWithDotOf filename).data <:+ (truncateFilenameToBytes filename maxBytes).data := by
  obtain ⟨hfit, hble, hmax⟩ := bestLenOf_spec filename maxBytes
  have heq := truncate_notfit_eq filename maxBytes hbig havail
  have hbytes : ∀ k, k ≤ bestLenOf filename maxBytes →
      (utf16leBytes (String.mk ((stemOf filename).take k) ++ ".." ++
        extWithDotOf filename)).length ≤ maxBytes := by
    intro k hk
    have h1 : (utf16leOfChars ((stemOf filename).take k)).length ≤
        availForStem filename maxBytes := fitsPrefix_mono _ _ hk hfit
    have h2 : (utf16leBytes "..").length = 4 := rfl
    have h3 : availForStem filename maxBytes =
        maxBytes - ((utf16leBytes (extWithDotOf filename)).length +
          (utf16leBytes "..").length) := rfl
    rw [utf16leBytes_append, utf16leBytes_append, List.length_append,
      List.length_append]
    have h4 : utf16leBytes (String.mk ((stemOf filename).take k)) =
        utf16leOfChars ((stemOf filename).take k) := rfl
    rw [h4]
    omega
  have hsuffix : ∀ k,
      (extWithDotOf filename).data <:+
        (String.mk ((stemOf filename).take k) ++ ".." ++
          extWithDotOf filename).data := by
    intro k
    refine ⟨(String.mk ((stemOf filename).take k)).data ++ "..".data, ?_⟩
    rw [String.data_append, String.data_append, List.append_assoc]
  by_cases h1 : 0 < bestLenOf filename maxBytes ∧
      bestLenOf filename maxBytes < (stemOf filename).length
  · by_cases h2 : ((stemOf filename).getD (bestLenOf filename maxBytes - 1) ' ').isAlpha = true
    · by_cases h3 : bestLenOf filename maxBytes / 2 <
          scanBack (stemOf filename) (bestLenOf filename maxBytes)
            (bestLenOf filename maxBytes)
      · rw [if_pos h1, if_pos h2, if_pos h3] at heq
        have hkle : scanBack (stemOf filename) (bestLenOf filename maxBytes)
            (bestLenOf filename maxBytes) ≤ bestLenOf filename maxBytes :=
          scanBack_le _ _ _ (le_refl _)
        refine ⟨_, heq, Or.inr ⟨h3, hkle⟩, hfit, hmax, ?_, ?_⟩
        · rw [heq]
          exact hbytes _ hkle
        · rw [heq]
          exact hsuffix _
      · rw [if_pos h1, if_pos h2, if_neg h3] at heq
        refine ⟨_, heq, Or.inl rfl, hfit, hmax, ?_, ?_⟩
        · rw [heq]
          exact hbytes _ (le_refl _)
        · rw [heq]
          exact hsuffix _
    · rw [if_pos h1, if_neg h2] at heq
      refine ⟨_, heq, Or.inl rfl, hfit, hmax, ?_, ?_⟩
      · rw [heq]
        exact hbytes _ (le_refl _)
      · rw [heq]
        exact hsuffix _
  · rw [if_neg h1] at heq
    refine ⟨_, heq, Or.inl rfl, hfit, hmax, ?_, ?_⟩
    · rw [heq]
      exact hbytes _ (le_refl _)
    · rw [heq]
      exact hsuffix _

/-- C7 counterexample to the claim as stated: for the display name
`"abc.verylongextension"` and a 14-byte budget (which the name's UTF-16LE
encoding exceeds), the reserve for the extension and ellipsis leaves fewer
than 4 bytes for the stem, so the code falls back to a bare character cut:
the result neither ends with the original extension nor has the
stem-ellipsis-extension shape. -/
theorem truncateFilename_counterexample :
    14 < (utf16leBytes "abc.verylongextension").length ∧
    truncateFilenameToBytes "abc.verylongextension" 14 = "abc.ve" ∧
    ¬ ((".verylongextension" : String).data <:+
        (truncateFilenameToBytes "abc.verylongextension" 14).data) := by
  refine ⟨by decide, by decide, ?_⟩
  intro h
  have := h.length_le
  simp [truncateFilenameToBytes] at this
  revert this
  decide

/-- Witness for `truncateFilename_spec` at the spec's own 40-byte scenario. -/
theorem truncateFilename_spec_witness :
    40 < (utf16leBytes "超长文件名示例需要被截断的情况测试.pdf").length ∧
    4 ≤ availForStem "超长文件名示例需要被截断的情况测试.pdf" 40 ∧
    ∃ k,
      truncateFilenameToBytes "超长文件名示例需要被截断的情况测试.pdf" 40 =
        String.mk ((stemOf "超长文件名示例需要被截断的情况测试.pdf").take k) ++ ".." ++
          extWithDotOf "超长文件名示例需要被截断的情况测试.pdf" ∧
      (k = bestLenOf "超长文件名示例需要被截断的情况测试.pdf" 40 ∨
        (bestLenOf "超长文件名示例需要被截断的情况测试.pdf" 40 / 2 < k ∧
          k ≤ bestLenOf "超长文件名示例需要被截断的情况测试.pdf" 40)) ∧
      fitsPrefix (stemOf "超长文件名示例需要被截断的情况测试.pdf")
        (availForStem "超长文件名示例需要被截断的情况测试.pdf" 40)
        (bestLenOf "超长文件名示例需要被截断的情况测试.pdf" 40) ∧
      (∀ j, j ≤ (stemOf "超长文件名示例需要被截断的情况测试.pdf").length →
        fitsPrefix (stemOf "超长文件名示例需要被截断的情况测试.pdf")
          (availForStem "超长文件名示例需要被截断的情况测试.pdf" 40) j →
        j ≤ bestLenOf "超长文件名示例需要被截断的情况测试.pdf" 40) ∧
      (utf16leBytes (truncateFilenameToBytes
        "超长文件名示例需要被截断的情况测试.pdf" 40)).length ≤ 40 ∧
      (extWithDotOf "超长文件名示例需要被截断的情况测试.pdf").data <:+
        (truncateFilenameToBytes "超长文件名示例需要被截断的情况测试.pdf" 40).data := by
  exact ⟨by decide, by decide,
    truncateFilename_spec "超长文件名示例需要被截断的情况测试.pdf" 40
      (by decide) (by decide)⟩

/-- C6.  When the display name's UTF-16LE encoding is no longer than the
placeholder's encoded length found in the template, the patched icon holds,
at the placeholder's offset, exactly the name's UTF-16LE bytes followed by
zero bytes up to the placeholder's encoded length, with every byte outside
that region unchanged. -/
theorem replaceFilename_fitting (emf : List Nat) (oldF newF : String) (pos : Nat)
    (hfind : findSubseq emf (utf16leBytes oldF) = some pos)
    (hfit : (utf16leBytes newF).length ≤ (utf16leBytes oldF).length) :
    replaceFilenameInEmf emf oldF newF =
      some (emf.take pos ++ utf16leBytes newF
        ++ List.replicate ((utf16leBytes oldF).length - (utf16leBytes newF).length) 0
        ++ emf.drop (pos + (utf16leBytes oldF).length)) := by
  obtain ⟨hle, _⟩ := findSubseq_some hfind
  have hpos : pos ≤ emf.length := by omega
  have htr : truncateFilenameToBytes newF (utf16leBytes oldF).length = newF := by
    rw [truncateFilenameToBytes, if_pos hfit]
  rw [replaceFilenameInEmf]
  simp only [hfind, htr]
  rw [if_pos (by omega)]
  have hlen1 : (emf.take pos ++ utf16leBytes newF).length =
      pos + (utf16leBytes newF).length := by
    rw [List.length_append, List.length_take]
    omega
  by_cases hlt : (utf16leBytes newF).length < (utf16leBytes oldF).length
  · rw [if_pos hlt]
    rw [take_append_of_length (emf.drop (pos + (utf16leBytes newF).length)) hlen1,
      List.drop_append_eq_append_drop,
      List.drop_eq_nil_of_le (by rw [hlen1]; omega),
      List.nil_append, hlen1, List.drop_drop]
    have harith : pos + (utf16leBytes newF).length +
        (pos + (utf16leBytes oldF).length - (pos + (utf16leBytes newF).length)) =
        pos + (utf16leBytes oldF).length := by omega
    rw [harith]
  · rw [if_neg hlt]
    have heq : (utf16leBytes newF).length = (utf16leBytes oldF).length := by omega
    rw [← heq]
    simp

/-- Witness for `replaceFilename_fitting` at a concrete template, old name
and display name. -/
theorem replaceFilename_fitting_witness :
    findSubseq ([1, 2] ++ utf16leBytes "ab" ++ [3, 4]) (utf16leBytes "ab") = some 2 ∧
    (utf16leBytes "x").length ≤ (utf16leBytes "ab").length ∧
    replaceFilenameInEmf ([1, 2] ++ utf16leBytes "ab" ++ [3, 4]) "ab" "x" =
      some [1, 2, 120, 0, 0, 0, 3, 4] := by
  refine ⟨by decide, by decide, ?_⟩
  rw [replaceFilename_fitting ([1, 2] ++ utf16leBytes "ab" ++ [3, 4]) "ab" "x" 2
    (by decide) (by decide)]
  decide

/-- C5.  Evaluation of `replace_filename_in_emf` at a failing input: with a
template whose placeholder region reaches the end of the buffer, the ZIP
placeholder `"ZL1.zip"` (14-byte budget) and a display name made of
non-BMP characters plus an extension longer than the budget, the
small-budget fallback of `truncate_filename_to_bytes` returns a 24-byte
replacement, and the write loop runs past the end of the buffer — a Rust
index panic (`none` in this model) instead of an equal-length output
buffer. -/
theorem replaceFilename_oob_eval :
    replaceFilenameInEmf (utf16leBytes "ZL1.zip") "ZL1.zip"
      "😀😀😀😀😀😀.verylongextension" = none ∧
    14 < (utf16leBytes (truncateFilenameToBytes
      "😀😀😀😀😀😀.verylongextension" 14)).length := by
  constructor
  · decide
  · decide

/-- C8 counterexample to the claim as stated: the icon patcher is not total
— at a template whose placeholder region reaches the end of the buffer and
a display name whose truncation still exceeds the placeholder budget, the
ZIP-class patch hits an out-of-bounds write (a Rust panic, `none` in this
model) instead of returning a byte buffer. -/
theorem getDefaultEmfIcon_counterexample :
    getDefaultEmfIcon
      ⟨[], [], [], utf16leBytes "ZL1.zip", []⟩ FileType.ZIP
      "😀😀😀😀😀😀.verylongextension" = none := by
  decide

/-- C8 (amended).  The icon patcher returns the generic template untouched
for the Image and unclassified classes, returns the class template
untouched whenever the hardcoded placeholder is not found, and returns a
buffer of the template's length whenever the (possibly truncated) written
name stays within the template bounds — which is every case except the
out-of-bounds overflow exhibited by `getDefaultEmfIcon_counterexample`. -/
theorem getDefaultEmfIcon_spec (assets : IconAssets) (name : String) :
    getDefaultEmfIcon assets FileType.Image name = some assets.ole_package_icon ∧
    (∀ e, getDefaultEmfIcon assets (FileType.Other e) name =
      some assets.ole_package_icon) ∧
    (∀ tpl old, findSubseq tpl (utf16leBytes old) = none →
      replaceFilenameInEmf tpl old name = some tpl) ∧
    (∀ tpl old pos, findSubseq tpl (utf16leBytes old) = some pos →
      pos + (utf16leBytes (truncateFilenameToBytes name
        (utf16leBytes old).length)).length ≤ tpl.length →
      ∃ out, replaceFilenameInEmf tpl old name = some out ∧
        out.length = tpl.length) := by
  refine ⟨rfl, fun e => rfl, ?_, ?_⟩
  · intro tpl old hnone
    rw [replaceFilenameInEmf]
    simp only [hnone]
  · intro tpl old pos hfind hbound
    obtain ⟨hle, _⟩ := findSubseq_some hfind
    rw [replaceFilenameInEmf]
    simp only [hfind]
    rw [if_pos hbound]
    have hlen1 : (tpl.take pos ++ utf16leBytes (truncateFilenameToBytes name
        (utf16leBytes old).length) ++ tpl.drop (pos + (utf16leBytes
          (truncateFilenameToBytes name (utf16leBytes old).length)).length)).length =
        tpl.length := by
      rw [List.length_append, List.length_append, List.length_take,
        List.length_drop]
      omega
    by_cases hlt : (utf16leBytes (truncateFilenameToBytes name
        (utf16leBytes old).length)).length < (utf16leBytes old).length
    · rw [if_pos hlt]
      refine ⟨_, rfl, ?_⟩
      rw [List.length_append, List.length_append, List.length_take,
        List.length_replicate, List.length_drop, hlen1]
      omega
    · rw [if_neg hlt]
      exact ⟨_, rfl, hlen1⟩

/-- Witness for `getDefaultEmfIcon_spec` at concrete assets, templates and
names, discharging the hypotheses of its universally quantified conjuncts. -/
theorem getDefaultEmfIcon_spec_witness :
    getDefaultEmfIcon ⟨[7], [7], [7], [7], [5, 6]⟩ FileType.Image "report.pdf" =
      some [5, 6] ∧
    replaceFilenameInEmf [9, 9] "ab" "report.pdf" = some [9, 9] ∧
    (∃ out, replaceFilenameInEmf ([1, 2] ++ utf16leBytes "ab" ++ [3, 4]) "ab"
        "x" = some out ∧
      out.length = ([1, 2] ++ utf16leBytes "ab" ++ [3, 4] : List Nat).length) := by
  refine ⟨(getDefaultEmfIcon_spec ⟨[7], [7], [7], [7], [5, 6]⟩ "report.pdf").1,
    (getDefaultEmfIcon_spec ⟨[7], [7], [7], [7], [5, 6]⟩ "report.pdf").2.2.1
      [9, 9] "ab" (by decide),
    (getDefaultEmfIcon_spec ⟨[7], [7], [7], [7], [5, 6]⟩ "x").2.2.2
      ([1, 2] ++ utf16leBytes "ab" ++ [3, 4]) "ab" 2 (by decide) (by decide)⟩

theorem infix_cons_lift {a : Char} {l s : List Char} (h : l <:+: s) :
    l <:+: a :: s := by
  obtain ⟨u, v, huv⟩ := h
  exact ⟨a :: u, v, by rw [← huv]; rfl⟩

theorem prefix_take_eq {pat X : List Char} (h : pat <+: X) {m : Nat}
    (hm : m ≤ pat.length) : X.take m = pat.take m := by
  obtain ⟨w, rfl⟩ := h
  exact List.take_append_of_le_length hm

theorem prefix_drop_prefix {pat X : List Char} (h : pat <+: X) {k : Nat}
    (hk : k ≤ pat.length) : pat.drop k <+: X.drop k := by
  obtain ⟨w, rfl⟩ := h
  refine ⟨w, ?_⟩
  rw [List.drop_append_eq_append_drop, Nat.sub_eq_zero_of_le hk, List.drop_zero]

theorem drop_append_le {l₁ : List Char} (l₂ : List Char) {n : Nat}
    (h : n ≤ l₁.length) : (l₁ ++ l₂).drop n = l₁.drop n ++ l₂ := by
  rw [List.drop_append_eq_append_drop, Nat.sub_eq_zero_of_le h, List.drop_zero]

theorem replaceAll_no_occurrence {pat rep : List Char} (hpat : pat ≠ []) :
    ∀ {s : List Char}, ¬ pat <:+: s → replaceAll pat rep s = s := by
  intro s
  induction s with
  | nil => intro _; rw [replaceAll]
  | cons c rest ih =>
    intro h
    rw [replaceAll, dif_neg (fun hc => h hc.2.isInfix)]
    congr 1
    exact ih (fun hi => h (infix_cons_lift hi))

theorem replaceAll_infix_rep {pat rep : List Char} (hpat : pat ≠ []) :
    ∀ {s : List Char}, pat <:+: s → rep <:+: replaceAll pat rep s := by
  intro s
  induction s with
  | nil =>
    intro h
    exact absurd (List.eq_nil_of_infix_nil h) hpat
  | cons c rest ih =>
    intro h
    by_cases hp : pat <+: (c :: rest)
    · rw [replaceAll, dif_pos ⟨hpat, hp⟩]
      exact ⟨[], replaceAll pat rep ((c :: rest).drop pat.length), rfl⟩
    · rw [replaceAll, dif_neg (fun hc => hp hc.2)]
      obtain ⟨u, v, huv⟩ := h
      cases u with
      | nil => exact absurd ⟨v, by simpa using huv⟩ hp
      | cons b u' =>
        have hrest : pat <:+: rest := by
          refine ⟨u', v, ?_⟩
          have := huv
          simp only [List.cons_append] at this
          exact (List.cons_eq_cons.mp this).2
        exact infix_cons_lift (ih hrest)

theorem replaceAll_prefix_pres {pat rep : List Char} :
    ∀ {t s : List Char}, t <+: s →
      (∀ j, j < t.length → ¬ pat <+: s.drop j) →
      t <+: replaceAll pat rep s := by
  intro t
  induction t with
  | nil => intro s _ _; exact List.nil_prefix
  | cons a t' ih =>
    intro s hts hocc
    obtain ⟨w, rfl⟩ := hts
    rw [List.cons_append, replaceAll,
      dif_neg (fun hc => (hocc 0 (by simp)) (by simpa using hc.2))]
    rw [List.cons_prefix_cons]
    refine ⟨rfl, ih ⟨w, rfl⟩ ?_⟩
    intro j hj
    have := hocc (j + 1) (by simpa using Nat.succ_lt_succ hj)
    simpa using this

theorem replaceAll_infix_pres {pat rep t : List Char} (hpat : pat ≠ [])
    (ht : t ≠ [])
    (hA : ∀ j, j < t.length →
      pat.take (min pat.length (t.length - j)) ≠
        (t.drop j).take (min pat.length (t.length - j)))
    (hB : ∀ j, j < pat.length → 0 < j →
      (pat.drop j).take (min (pat.length - j) t.length) ≠
        t.take (min (pat.length - j) t.length)) :
    ∀ {s : List Char}, t <:+: s → t <:+: replaceAll pat rep s := by
  have hocc : ∀ (v : List Char) (j : Nat), j < t.length →
      ¬ pat <+: (t.drop j ++ v) := by
    intro v j hj hp
    have hml : min pat.length (t.length - j) ≤ pat.length := Nat.min_le_left _ _
    have h1 : (t.drop j ++ v).take (min pat.length (t.length - j)) =
        pat.take (min pat.length (t.length - j)) := prefix_take_eq hp hml
    have h2 : (t.drop j ++ v).take (min pat.length (t.length - j)) =
        (t.drop j).take (min pat.length (t.length - j)) :=
      List.take_append_of_le_length (by
        rw [List.length_drop]
        exact Nat.min_le_right _ _)
    exact hA j hj (h1.symm.trans h2)
  have key : ∀ n, ∀ s : List Char, s.length ≤ n → t <:+: s →
      t <:+: replaceAll pat rep s := by
    intro n
    induction n with
    | zero =>
      intro s hsl hinf
      have hs : s = [] := List.eq_nil_of_length_eq_zero (Nat.le_zero.mp hsl)
      subst hs
      exact absurd (List.eq_nil_of_infix_nil hinf) ht
    | succ n ih =>
      intro s hsl hinf
      cases s with
      | nil => exact absurd (List.eq_nil_of_infix_nil hinf) ht
      | cons c rest =>
        obtain ⟨u, v, huv⟩ := hinf
        cases u with
        | nil =>
          have htp : t <+: (c :: rest) := ⟨v, by simpa using huv⟩
          refine (replaceAll_prefix_pres htp ?_).isInfix
          intro j hj
          obtain ⟨w, hw⟩ := htp
          rw [← hw, drop_append_le w (le_of_lt hj)]
          exact hocc w j hj
        | cons b u' =>
          by_cases hp : pat <+: (c :: rest)
          · rcases Nat.lt_or_ge (b :: u').length pat.length with hul | hug
            · exfalso
              have hdrop : (c :: rest).drop (b :: u').length = t ++ v := by
                rw [← huv, List.append_assoc,
                  List.drop_append_eq_append_drop, List.drop_length,
                  Nat.sub_self, List.drop_zero, List.nil_append]
              have hpd : pat.drop (b :: u').length <+:
                  (c :: rest).drop (b :: u').length :=
                prefix_drop_prefix hp (le_of_lt hul)
              rw [hdrop] at hpd
              have hml : min (pat.length - (b :: u').length) t.length ≤
                  (pat.drop (b :: u').length).length := by
                rw [List.length_drop]
                exact Nat.min_le_left _ _
              have e1 : (t ++ v).take (min (pat.length - (b :: u').length) t.length) =
                  (pat.drop (b :: u').length).take
                    (min (pat.length - (b :: u').length) t.length) :=
                prefix_take_eq hpd hml
              have e2 : (t ++ v).take (min (pat.length - (b :: u').length) t.length) =
                  t.take (min (pat.length - (b :: u').length) t.length) :=
                List.take_append_of_le_length (Nat.min_le_right _ _)
              exact hB (b :: u').length hul (by simp) (e1.symm.trans e2)
            · rw [replaceAll, dif_pos ⟨hpat, hp⟩]
              have hdrop : t <:+: (c :: rest).drop pat.length := by
                refine ⟨(b :: u').drop pat.length, v, ?_⟩
                rw [← huv, drop_append_le v (by
                    rw [List.length_append]
                    omega),
                  drop_append_le t hug]
              have hlen : ((c :: rest).drop pat.length).length ≤ n := by
                rw [List.length_drop]
                have hp1 : 0 < pat.length := List.length_pos.mpr hpat
                simp only [List.length_cons] at hsl ⊢
                omega
              obtain ⟨u2, v2, h2⟩ := ih _ hlen hdrop
              exact ⟨rep ++ u2, v2, by rw [← h2]; simp⟩
          · rw [replaceAll, dif_neg (fun hc => hp hc.2)]
            have hrest : t <:+: rest := by
              refine ⟨u', v, ?_⟩
              have := huv
              simp only [List.cons_append] at this
              exact (List.cons_eq_cons.mp this).2
            refine infix_cons_lift (ih rest ?_ hrest)
            simp only [List.length_cons] at hsl
            omega
  intro s
  exact key s.length s (le_refl _)

/-- No occurrence of `</Types>` starts inside (or overlapping the end of)
the literal `Extension="bin"`. -/
theorem ctA_bin : ∀ j, j < ctBinMarker.length →
    ctTypesClose.take (min ctTypesClose.length (ctBinMarker.length - j)) ≠
      (ctBinMarker.drop j).take (min ctTypesClose.length (ctBinMarker.length - j)) := by
  decide

/-- No occurrence of `Extension="bin"` starts strictly inside an
occurrence of `</Types>`. -/
theorem ctB_bin : ∀ j, j < ctTypesClose.length → 0 < j →
    (ctTypesClose.drop j).take (min (ctTypesClose.length - j) ctBinMarker.length) ≠
      ctBinMarker.take (min (ctTypesClose.length - j) ctBinMarker.length) := by
  decide

/-- No occurrence of `</Types>` starts inside (or overlapping the end of)
the literal `Extension="emf"`. -/
theorem ctA_emf : ∀ j, j < ctEmfMarker.length →
    ctTypesClose.take (min ctTypesClose.length (ctEmfMarker.length - j)) ≠
      (ctEmfMarker.drop j).take (min ctTypesClose.length (ctEmfMarker.length - j)) := by
  decide

/-- No occurrence of `Extension="emf"` starts strictly inside an
occurrence of `</Types>`. -/
theorem ctB_emf : ∀ j, j < ctTypesClose.length → 0 < j →
    (ctTypesClose.drop j).take (min (ctTypesClose.length - j) ctEmfMarker.length) ≠
      ctEmfMarker.take (min (ctTypesClose.length - j) ctEmfMarker.length) := by
  decide

theorem ctBinMarker_infix_default : ctBinMarker <:+: ctBinDefault := by
  refine ⟨"<Default ".data,
    (" ContentType=\"application/vnd.openxmlformats-officedocument.oleObject\"/>" ++
      "</Types>").data, ?_⟩
  decide

theorem ctEmfMarker_infix_default : ctEmfMarker <:+: ctEmfDefault := by
  refine ⟨"<Default ".data, " ContentType=\"image/x-emf\"/></Types>".data, ?_⟩
  decide

theorem ctTypesClose_infix_binDefault : ctTypesClose <:+: ctBinDefault := by
  refine ⟨("<Default Extension=\"bin\"" ++
    " ContentType=\"application/vnd.openxmlformats-officedocument.oleObject\"/>").data,
    [], ?_⟩
  decide

/-- After one run of `add_ole_content_types`, the result either mentions
each of the two extensions or contains no `</Types>` tag at all, so the
second run's replacements are both no-ops. -/
theorem ct_markers_after (s : List Char) :
    (ctBinMarker <:+: ctStepEmf (ctStepBin s) ∨
      ¬ ctTypesClose <:+: ctStepEmf (ctStepBin s)) ∧
    (ctEmfMarker <:+: ctStepEmf (ctStepBin s) ∨
      ¬ ctTypesClose <:+: ctStepEmf (ctStepBin s)) := by
  by_cases cb : ctBinMarker <:+: s
  · have hsb : ctStepBin s = s := by
      unfold ctStepBin
      rw [if_pos cb]
    by_cases ce : ctEmfMarker <:+: s
    · have hse : ctStepEmf s = s := by
        unfold ctStepEmf
        rw [if_pos ce]
      rw [hsb, hse]
      exact ⟨Or.inl cb, Or.inl ce⟩
    · have hse : ctStepEmf s = replaceAll ctTypesClose ctEmfDefault s := by
        unfold ctStepEmf
        rw [if_neg ce]
      rw [hsb, hse]
      by_cases cp : ctTypesClose <:+: s
      · constructor
        · exact Or.inl (replaceAll_infix_pres (by decide) (by decide)
            ctA_bin ctB_bin cb)
        · exact Or.inl (ctEmfMarker_infix_default.trans
            (replaceAll_infix_rep (by decide) cp))
      · rw [replaceAll_no_occurrence (by decide) cp]
        exact ⟨Or.inl cb, Or.inr cp⟩
  · have hsb : ctStepBin s = replaceAll ctTypesClose ctBinDefault s := by
      unfold ctStepBin
      rw [if_neg cb]
    by_cases cp : ctTypesClose <:+: s
    · have hzb : ctBinMarker <:+: ctStepBin s := by
        rw [hsb]
        exact ctBinMarker_infix_default.trans (replaceAll_infix_rep (by decide) cp)
      have hzp : ctTypesClose <:+: ctStepBin s := by
        rw [hsb]
        exact ctTypesClose_infix_binDefault.trans
          (replaceAll_infix_rep (by decide) cp)
      by_cases cez : ctEmfMarker <:+: ctStepBin s
      · have hse : ctStepEmf (ctStepBin s) = ctStepBin s := by
          unfold ctStepEmf
          rw [if_pos cez]
        rw [hse]
        exact ⟨Or.inl hzb, Or.inl cez⟩
      · have hse : ctStepEmf (ctStepBin s) =
            replaceAll ctTypesClose ctEmfDefault (ctStepBin s) := by
          unfold ctStepEmf
          rw [if_neg cez]
        rw [hse]
        constructor
        · exact Or.inl (replaceAll_infix_pres (by decide) (by decide)
            ctA_bin ctB_bin hzb)
        · exact Or.inl (ctEmfMarker_infix_default.trans
            (replaceAll_infix_rep (by decide) hzp))
    · have hsb' : ctStepBin s = s := by
        rw [hsb, replaceAll_no_occurrence (by decide) cp]
      rw [hsb']
      by_cases ce : ctEmfMarker <:+: s
      · have hse : ctStepEmf s = s := by
          unfold ctStepEmf
          rw [if_pos ce]
        rw [hse]
        exact ⟨Or.inr cp, Or.inl ce⟩
      · have hse : ctStepEmf s = replaceAll ctTypesClose ctEmfDefault s := by
          unfold ctStepEmf
          rw [if_neg ce]
        rw [hse, replaceAll_no_occurrence (by decide) cp]
        exact ⟨Or.inr cp, Or.inr cp⟩

/-- The `bin` step is a no-op on any text that already mentions the `bin`
extension or contains no `</Types>` tag. -/
theorem ctStepBin_noop {z : List Char}
    (h : ctBinMarker <:+: z ∨ ¬ ctTypesClose <:+: z) : ctStepBin z = z := by
  unfold ctStepBin
  rcases h with h | h
  · rw [if_pos h]
  · by_cases hc : ctBinMarker <:+: z
    · rw [if_pos hc]
    · rw [if_neg hc]
      exact replaceAll_no_occurrence (by decide) h

/-- The `emf` step is a no-op on any text that already mentions the `emf`
extension or contains no `</Types>` tag. -/
theorem ctStepEmf_noop {z : List Char}
    (h : ctEmfMarker <:+: z ∨ ¬ ctTypesClose <:+: z) : ctStepEmf z = z := by
  unfold ctStepEmf
  rcases h with h | h
  · rw [if_pos h]
  · by_cases hc : ctEmfMarker <:+: z
    · rw [if_pos hc]
    · rw [if_neg hc]
      exact replaceAll_no_occurrence (by decide) h

/-- C9.  The content-type step is idempotent on every registry, and a
registry that already mentions both `Extension="bin"` and
`Extension="emf"` is returned unchanged (each `Default` element is
appended only when its extension is absent). -/
theorem addOleContentTypes_idem (xml : String) :
    addOleContentTypes (addOleContentTypes xml) = addOleContentTypes xml ∧
    (ctBinMarker <:+: xml.data → ctEmfMarker <:+: xml.data →
      addOleContentTypes xml = xml) := by
  constructor
  · obtain ⟨p1, p2⟩ := ct_markers_after xml.data
    calc addOleContentTypes (addOleContentTypes xml)
        = String.mk (ctStepEmf (ctStepBin (ctStepEmf (ctStepBin xml.data)))) := rfl
      _ = String.mk (ctStepEmf (ctStepEmf (ctStepBin xml.data))) := by
          rw [ctStepBin_noop p1]
      _ = String.mk (ctStepEmf (ctStepBin xml.data)) := by
          rw [ctStepEmf_noop p2]
      _ = addOleContentTypes xml := rfl
  · intro hb he
    calc addOleContentTypes xml
        = String.mk (ctStepEmf (ctStepBin xml.data)) := rfl
      _ = String.mk xml.data := by
          rw [ctStepBin_noop (Or.inl hb), ctStepEmf_noop (Or.inl he)]
      _ = xml := rfl

/-- Witness for `addOleContentTypes_idem` at a registry that already
declares both extensions. -/
theorem addOleContentTypes_idem_witness :
    addOleContentTypes (addOleContentTypes
      ("<Types><Default Extension=\"bin\" ContentType=\"b\"/>" ++
       "<Default Extension=\"emf\" ContentType=\"e\"/></Types>")) =
      addOleContentTypes
        ("<Types><Default Extension=\"bin\" ContentType=\"b\"/>" ++
         "<Default Extension=\"emf\" ContentType=\"e\"/></Types>") ∧
    addOleContentTypes
        ("<Types><Default Extension=\"bin\" ContentType=\"b\"/>" ++
         "<Default Extension=\"emf\" ContentType=\"e\"/></Types>") =
      ("<Types><Default Extension=\"bin\" ContentType=\"b\"/>" ++
       "<Default Extension=\"emf\" ContentType=\"e\"/></Types>") := by
  exact ⟨(addOleContentTypes_idem _).1,
    (addOleContentTypes_idem _).2 (by decide) (by decide)⟩

theorem le_foldl_max : ∀ (l : List Nat) (a : Nat), a ≤ l.foldl Nat.max a := by
  intro l
  induction l with
  | nil => intro a; exact le_refl a
  | cons b t ih =>
    intro a
    exact le_trans (Nat.le_max_left a b) (ih (Nat.max a b))

theorem mem_le_foldl_max {x : Nat} :
    ∀ (l : List Nat) (a : Nat), x ∈ l → x ≤ l.foldl Nat.max a := by
  intro l
  induction l with
  | nil => intro a hx; exact absurd hx (List.not_mem_nil x)
  | cons b t ih =>
    intro a hx
    rcases List.mem_cons.mp hx with h | h
    · subst h
      exact le_trans (Nat.le_max_right a x) (le_foldl_max t (Nat.max a x))
    · exact ih (Nat.max a b) h

theorem takeWhile_digits {d : List Char} (hdig : ∀ c ∈ d, c.isDigit = true)
    (v : List Char) : (d ++ '"' :: v).takeWhile Char.isDigit = d := by
  induction d with
  | nil => simp [List.takeWhile]
  | cons c t ih =>
    have hc : c.isDigit = true := hdig c (by simp)
    have ht : ∀ c ∈ t, c.isDigit = true := fun x hx => hdig x (by simp [hx])
    simp [List.takeWhile, hc, ih ht]

theorem extractRIdNumbers_superset {x : Nat} (c : Char) (rest : List Char)
    (h : x ∈ extractRIdNumbers rest) : x ∈ extractRIdNumbers (c :: rest) := by
  rw [extractRIdNumbers]
  by_cases h1 : "Id=\"rId".data <+: (c :: rest)
  · rw [if_pos h1]
    by_cases h2 : ((c :: rest).drop 7).takeWhile Char.isDigit ≠ [] ∧
        (((c :: rest).drop 7).drop
          (((c :: rest).drop 7).takeWhile Char.isDigit).length).take 1 = ['"'] ∧
        natOfDigits (((c :: rest).drop 7).takeWhile Char.isDigit) ≤ usizeMax
    · rw [if_pos h2]
      exact List.mem_cons_of_mem _ h
    · rw [if_neg h2]
      exact h
  · rw [if_neg h1]
    exact h

theorem extractRIdNumbers_head {d : List Char} (hd : d ≠ [])
    (hdig : ∀ c ∈ d, c.isDigit = true) (hval : natOfDigits d ≤ usizeMax)
    (v : List Char) :
    natOfDigits d ∈ extractRIdNumbers ("Id=\"rId".data ++ (d ++ '"' :: v)) := by
  have hc : ("Id=\"rId".data : List Char) = 'I' :: "d=\"rId".data := by decide
  have hshape : ("Id=\"rId".data : List Char) ++ (d ++ '"' :: v) =
      'I' :: ("d=\"rId".data ++ (d ++ '"' :: v)) := by
    rw [hc, List.cons_append]
  rw [hshape, extractRIdNumbers]
  have hpre : "Id=\"rId".data <+: 'I' :: ("d=\"rId".data ++ (d ++ '"' :: v)) := by
    rw [← hshape]
    exact List.prefix_append _ _
  rw [if_pos hpre]
  have hafter : ('I' :: ("d=\"rId".data ++ (d ++ '"' :: v))).drop 7 = d ++ '"' :: v := by
    rw [← hshape]
    exact drop_append_of_length _ (by decide)
  rw [hafter]
  simp only [takeWhile_digits hdig, drop_append_of_length ('"' :: v) rfl,
    List.take_succ_cons, List.take_zero]
  rw [if_pos ⟨hd, trivial, hval⟩]
  exact List.mem_cons_self _ _

theorem mem_extractRIdNumbers {d : List Char} (hd : d ≠ [])
    (hdig : ∀ c ∈ d, c.isDigit = true) (hval : natOfDigits d ≤ usizeMax) :
    ∀ (u v : List Char),
      natOfDigits d ∈ extractRIdNumbers (u ++ "Id=\"rId".data ++ (d ++ '"' :: v)) := by
  intro u
  induction u with
  | nil =>
    intro v
    rw [List.nil_append]
    exact extractRIdNumbers_head hd hdig hval v
  | cons c u' ih =>
    intro v
    rw [List.cons_append, List.cons_append]
    exact extractRIdNumbers_superset c _ (ih v)

/-- Decompose the concatenation of `f` over `List.range n` around index
`i < n`. -/
theorem join_range_decomp (f : Nat → String) :
    ∀ n i, i < n → ∃ A B : String,
      String.join ((List.range n).map f) = A ++ f i ++ B := by
  intro n
  induction n with
  | zero => intro i hi; omega
  | succ n ih =>
    intro i hi
    rw [List.range_succ, List.map_append, List.map_singleton]
    rcases Nat.lt_or_ge i n with h | h
    · obtain ⟨A, B, hAB⟩ := ih i h
      refine ⟨A, B ++ f n, ?_⟩
      have : String.join ((List.range n).map f ++ [f n]) =
          String.join ((List.range n).map f) ++ f n := by
        induction (List.range n).map f with
        | nil => simp [String.join]
        | cons a t iht => simp [String.join, iht, String.append_assoc]
      rw [this, hAB, String.append_assoc]
    · have hi' : i = n := by omega
      subst hi'
      refine ⟨String.join ((List.range i).map f), "", ?_⟩
      have : String.join ((List.range i).map f ++ [f i]) =
          String.join ((List.range i).map f) ++ f i := by
        induction (List.range i).map f with
        | nil => simp [String.join]
        | cons a t iht => simp [String.join, iht, String.append_assoc]
      rw [this]
      apply (String.append_empty _).symm

/-- The `2 n` relationship ids assigned in one invocation are the interval
`[base, base + 2 n)`. -/
theorem assigned_ids_eq_range (base : Nat) :
    ∀ n, (List.range n).flatMap (fun j => [base + 2 * j, base + 2 * j + 1]) =
      (List.range (2 * n)).map (base + ·) := by
  intro n
  induction n with
  | zero => rfl
  | succ n ih =>
    rw [List.range_succ, List.flatMap_append, ih]
    have h2 : 2 * (n + 1) = (2 * n + 1) + 1 := by omega
    rw [h2, List.range_succ, List.range_succ]
    simp [Nat.add_assoc]

set_option maxRecDepth 8000 in
/-- C3.  The base relationship id is one plus the maximum `n` over the
`Id="rIdn"` occurrences of the table, so every pre-existing numeric id
(that parses as `usize`, as the code requires) is strictly below it;
attachment `i` is assigned object id `rId(base+2i)` and icon id
`rId(base+2i+1)`; those same two id strings appear in the attachment's
body-markup fragment and in its two appended relationship entries; and the
newly assigned ids are pairwise distinct.  (`hnoflow` keeps the model in
the regime where the `usize` arithmetic of the source cannot wrap.) -/
theorem relationshipId_allocation (rels_xml : String) (files : List EmbeddedFile)
    (i : Nat) (hi : i < files.length)
    (hclose : relsClose <:+: rels_xml.data)
    (hnoflow : getNextRelationshipId rels_xml + 2 * files.length ≤ usizeMax) :
    (∀ u d v, rels_xml.data = u ++ "Id=\"rId".data ++ (d ++ '"' :: v) →
      d ≠ [] → (∀ c ∈ d, c.isDigit = true) → natOfDigits d ≤ usizeMax →
      natOfDigits d < getNextRelationshipId rels_xml) ∧
    docOleRid (getNextRelationshipId rels_xml) i =
      "rId" ++ toString (getNextRelationshipId rels_xml + 2 * i) ∧
    docImgRid (getNextRelationshipId rels_xml) i =
      "rId" ++ toString (getNextRelationshipId rels_xml + 2 * i + 1) ∧
    docOleRid (getNextRelationshipId rels_xml) i =
      relsOleRid (getNextRelationshipId rels_xml) i ∧
    docImgRid (getNextRelationshipId rels_xml) i =
      relsImgRid (getNextRelationshipId rels_xml) i ∧
    ("r:id=\"" ++ docImgRid (getNextRelationshipId rels_xml) i ++ "\"").data <:+:
      (oleObjectFragment (getNextRelationshipId rels_xml) i).data ∧
    ("r:id=\"" ++ docOleRid (getNextRelationshipId rels_xml) i ++ "\"").data <:+:
      (oleObjectFragment (getNextRelationshipId rels_xml) i).data ∧
    ("Id=\"" ++ relsOleRid (getNextRelationshipId rels_xml) i ++ "\"").data <:+:
      (addOleRelationshipsToRels rels_xml files
        (getNextRelationshipId rels_xml)).data ∧
    ("Id=\"" ++ relsImgRid (getNextRelationshipId rels_xml) i ++ "\"").data <:+:
      (addOleRelationshipsToRels rels_xml files
        (getNextRelationshipId rels_xml)).data ∧
    ((List.range files.length).flatMap (fun j =>
      [getNextRelationshipId rels_xml + 2 * j,
       getNextRelationshipId rels_xml + 2 * j + 1])).Nodup := by
  have hentries : ∀ t : String,
      t.data <:+: (oleRelEntryPair (getNextRelationshipId rels_xml) i).data →
      t.data <:+: (addOleRelationshipsToRels rels_xml files
        (getNextRelationshipId rels_xml)).data := by
    intro t ht
    obtain ⟨A, B, hAB⟩ := join_range_decomp
      (oleRelEntryPair (getNextRelationshipId rels_xml)) files.length i hi
    have h2 : (oleRelEntryPair (getNextRelationshipId rels_xml) i).data <:+:
        (oleRelEntries (getNextRelationshipId rels_xml) files).data := by
      rw [oleRelEntries, hAB]
      exact ⟨A.data, B.data, by simp [String.data_append]⟩
    have h3 : (oleRelEntries (getNextRelationshipId rels_xml) files).data <:+:
        ((oleRelEntries (getNextRelationshipId rels_xml) files).data ++ relsClose) :=
      ⟨[], relsClose, by simp⟩
    have h4 : ((oleRelEntries (getNextRelationshipId rels_xml) files).data ++
        relsClose) <:+:
        (addOleRelationshipsToRels rels_xml files
          (getNextRelationshipId rels_xml)).data :=
      replaceAll_infix_rep (by decide) hclose
    exact ht.trans (h2.trans (h3.trans h4))
  refine ⟨?_, by rw [docOleRid, Nat.mul_comm], by rw [docImgRid, Nat.mul_comm],
    rfl, rfl, ?_, ?_, ?_, ?_, ?_⟩
  · intro u d v heq hd hdig hval
    have hmem := mem_extractRIdNumbers hd hdig hval u v
    rw [← heq] at hmem
    have hle := mem_le_foldl_max (extractRIdNumbers rels_xml.data) 0 hmem
    rw [getNextRelationshipId]
    omega
  · refine ⟨(("\n<w:p w14:paraId=\"" ++ hex08 (0x10000000 + i) ++
      "\"><w:pPr><w:rPr><w:rFonts w:hint=\"default\"/><w:lang w:val=\"en-US\"/></w:rPr></w:pPr><w:r><w:rPr><w:rFonts w:hint=\"default\"/><w:lang w:val=\"en-US\"/></w:rPr><w:object><v:shape id=\"" ++
      ("_x0000_i" ++ toString (1025 + i)) ++
      "\" o:spt=\"75\" type=\"#_x0000_t75\" style=\"height:65.25pt;width:72.4pt;\" o:ole=\"t\" filled=\"f\" o:preferrelative=\"t\" stroked=\"f\" coordsize=\"21600,21600\"><v:fill on=\"f\" focussize=\"0,0\"/><v:stroke on=\"f\"/><v:imagedata " :
        String)).data,
      ((" o:title=\"\"/><o:lock v:ext=\"edit\" aspectratio=\"t\"/><w10:wrap type=\"none\"/><w10:anchorlock/></v:shape><o:OLEObject Type=\"Embed\" ProgID=\"Package\" ShapeID=\"" ++
      ("_x0000_i" ++ toString (1025 + i)) ++
      "\" DrawAspect=\"Icon\" ObjectID=\"" ++ ("_146807572" ++ toString i) ++ "\" " ++
      ("r:id=\"" ++ docOleRid (getNextRelationshipId rels_xml) i ++ "\"") ++
      "><o:LockedField>false</o:LockedField></o:OLEObject></w:object></w:r></w:p>\n" :
        String)).data, ?_⟩
    simp [oleObjectFragment, String.data_append, List.append_assoc]
  · refine ⟨(("\n<w:p w14:paraId=\"" ++ hex08 (0x10000000 + i) ++
      "\"><w:pPr><w:rPr><w:rFonts w:hint=\"default\"/><w:lang w:val=\"en-US\"/></w:rPr></w:pPr><w:r><w:rPr><w:rFonts w:hint=\"default\"/><w:lang w:val=\"en-US\"/></w:rPr><w:object><v:shape id=\"" ++
      ("_x0000_i" ++ toString (1025 + i)) ++
      "\" o:spt=\"75\" type=\"#_x0000_t75\" style=\"height:65.25pt;width:72.4pt;\" o:ole=\"t\" filled=\"f\" o:preferrelative=\"t\" stroked=\"f\" coordsize=\"21600,21600\"><v:fill on=\"f\" focussize=\"0,0\"/><v:stroke on=\"f\"/><v:imagedata " ++
      ("r:id=\"" ++ docImgRid (getNextRelationshipId rels_xml) i ++ "\"") ++
      " o:title=\"\"/><o:lock v:ext=\"edit\" aspectratio=\"t\"/><w10:wrap type=\"none\"/><w10:anchorlock/></v:shape><o:OLEObject Type=\"Embed\" ProgID=\"Package\" ShapeID=\"" ++
      ("_x0000_i" ++ toString (1025 + i)) ++
      "\" DrawAspect=\"Icon\" ObjectID=\"" ++ ("_146807572" ++ toString i) ++ "\" " :
        String)).data,
      ("><o:LockedField>false</o:LockedField></o:OLEObject></w:object></w:r></w:p>\n" :
        String).data, ?_⟩
    simp [oleObjectFragment, String.data_append, List.append_assoc]
  · refine hentries _ ?_
    refine ⟨("<Relationship " : String).data,
      ((" Type=\"http://schemas.openxmlformats.org/officeDocument/2006/relationships/oleObject\" Target=\"embeddings/oleObject" ++
      toString (i + 1) ++ ".bin\"/>" ++
      "<Relationship " ++
      ("Id=\"" ++ relsImgRid (getNextRelationshipId rels_xml) i ++ "\"") ++
      " Type=\"http://schemas.openxmlformats.org/officeDocument/2006/relationships/image\" Target=\"media/image" ++
      toString (i + 1) ++ ".emf\"/>" : String)).data, ?_⟩
    simp [oleRelEntryPair, String.data_append, List.append_assoc]
  · refine hentries _ ?_
    refine ⟨(("<Relationship " ++
      ("Id=\"" ++ relsOleRid (getNextRelationshipId rels_xml) i ++ "\"") ++
      " Type=\"http://schemas.openxmlformats.org/officeDocument/2006/relationships/oleObject\" Target=\"embeddings/oleObject" ++
      toString (i + 1) ++ ".bin\"/>" ++
      "<Relationship " : String)).data,
      ((" Type=\"http://schemas.openxmlformats.org/officeDocument/2006/relationships/image\" Target=\"media/image" ++
      toString (i + 1) ++ ".emf\"/>" : String)).data, ?_⟩
    simp [oleRelEntryPair, String.data_append, List.append_assoc]
  · rw [assigned_ids_eq_range]
    exact (List.nodup_range _).map (fun a b h => by omega)

/-- Witness for `relationshipId_allocation` at a concrete relationship
table and a two-attachment list. -/
theorem relationshipId_allocation_witness :
    (1 : Nat) < ([⟨"1", "a.pdf", "p", [], "application/pdf", FileType.PDF, "Z"⟩,
      ⟨"2", "b.zip", "q", [], "application/zip", FileType.ZIP, "Z"⟩] :
        List EmbeddedFile).length ∧
    relsClose <:+:
      ("<Relationships><Relationship Id=\"rId3\"/></Relationships>" : String).data ∧
    getNextRelationshipId
      "<Relationships><Relationship Id=\"rId3\"/></Relationships>" = 4 ∧
    docOleRid 4 1 = relsOleRid 4 1 ∧
    docImgRid 4 1 = relsImgRid 4 1 ∧
    ((List.range 2).flatMap (fun j => [4 + 2 * j, 4 + 2 * j + 1])).Nodup := by
  have h := relationshipId_allocation
    "<Relationships><Relationship Id=\"rId3\"/></Relationships>"
    [⟨"1", "a.pdf", "p", [], "application/pdf", FileType.PDF, "Z"⟩,
     ⟨"2", "b.zip", "q", [], "application/zip", FileType.ZIP, "Z"⟩] 1
    (by decide)
    ⟨"<Relationships><Relationship Id=\"rId3\"/>".data, [], by decide⟩
    (by decide)
  have h4 : getNextRelationshipId
      "<Relationships><Relationship Id=\"rId3\"/></Relationships>" = 4 := by decide
  refine ⟨by decide,
    ⟨"<Relationships><Relationship Id=\"rId3\"/>".data, [], by decide⟩,
    h4, ?_, ?_, ?_⟩
  · have := h.2.2.2.1
    rwa [h4] at this
  · have := h.2.2.2.2.1
    rwa [h4] at this
  · have := h.2.2.2.2.2.2.2.2.2
    rwa [h4] at this

/-- C2.  The embedding orchestrator's fallback contract: with no files to
embed it returns the base document bytes unchanged; when the package patch
step reports any error it returns the base document bytes unchanged
(never a partially patched document); and the patch step does report an
error both when the host bytes cannot be opened as a ZIP archive and when
a required part is missing. -/
theorem buildDocx_fallback (assets : IconAssets) (base : DocxBytes)
    (files : List EmbeddedFile) :
    (files = [] → buildDocxWithEmbeddings assets base files = some base) ∧
    (∀ e, embedOleObjectsIntoDocx assets base files = some (.error e) →
      buildDocxWithEmbeddings assets base files = some base) ∧
    (∀ blob, embedOleObjectsIntoDocx assets (DocxBytes.raw blob) files =
      some (.error "invalid Zip archive")) ∧
    (∀ entries, entries.lookup "word/document.xml" = none →
      embedOleObjectsIntoDocx assets (DocxBytes.zip entries) files =
        some (.error ("无法找到文件: " ++ "word/document.xml"))) := by
  refine ⟨?_, ?_, fun blob => rfl, ?_⟩
  · intro h
    subst h
    rfl
  · intro e he
    rw [buildDocxWithEmbeddings]
    by_cases hf : files.isEmpty
    · rw [if_pos hf]
    · rw [if_neg hf, he]
  · intro entries h
    rw [embedOleObjectsIntoDocx]
    rw [readFileFromZipArchive, h]

/-- Witness for `buildDocx_fallback`: the empty-list, error-fallback,
invalid-archive and missing-part cases at concrete inputs. -/
theorem buildDocx_fallback_witness :
    buildDocxWithEmbeddings ⟨[], [], [], [], []⟩ (DocxBytes.raw [1, 2]) [] =
      some (DocxBytes.raw [1, 2]) ∧
    buildDocxWithEmbeddings ⟨[], [], [], [], []⟩ (DocxBytes.raw [1, 2])
      [⟨"i", "a.txt", "p", [65], "text/plain", FileType.Other "txt", "Z"⟩] =
      some (DocxBytes.raw [1, 2]) ∧
    embedOleObjectsIntoDocx ⟨[], [], [], [], []⟩ (DocxBytes.raw [1, 2])
      [⟨"i", "a.txt", "p", [65], "text/plain", FileType.Other "txt", "Z"⟩] =
      some (.error "invalid Zip archive") ∧
    embedOleObjectsIntoDocx ⟨[], [], [], [], []⟩ (DocxBytes.zip [])
      [⟨"i", "a.txt", "p", [65], "text/plain", FileType.Other "txt", "Z"⟩] =
      some (.error ("无法找到文件: " ++ "word/document.xml")) := by
  have h := buildDocx_fallback ⟨[], [], [], [], []⟩ (DocxBytes.raw [1, 2])
    [⟨"i", "a.txt", "p", [65], "text/plain", FileType.Other "txt", "Z"⟩]
  have h0 := buildDocx_fallback ⟨[], [], [], [], []⟩ (DocxBytes.raw [1, 2])
    ([] : List EmbeddedFile)
  refine ⟨h0.1 rfl, ?_, h.2.2.1 [1, 2], h.2.2.2 [] rfl⟩
  exact h.2.1 "invalid Zip archive" (h.2.2.1 [1, 2])

/-- Inversion of a successful `createEmbeddedFile`: the metadata existed,
was within the cap, and the payload is exactly what `fs::read` returned. -/
theorem createEmbeddedFile_ok {fs : FsModel} {u p z : String} {f : EmbeddedFile}
    (h : createEmbeddedFile fs u p z = .ok f) :
    ∃ m data, fs.metadata p = some m ∧ ¬ MAX_FILE_SIZE < m ∧
      fs.readFile p = some data ∧ f.data = data := by
  rw [createEmbeddedFile] at h
  cases hm : fs.metadata p with
  | none =>
    rw [hm] at h
    exact absurd h (by simp)
  | some m =>
    rw [hm] at h
    simp only [] at h
    by_cases hb : MAX_FILE_SIZE < m
    · rw [if_pos hb] at h
      exact absurd h (by simp)
    · rw [if_neg hb] at h
      cases hr : fs.readFile p with
      | none =>
        rw [hr] at h
        exact absurd h (by simp)
      | some data =>
        rw [hr] at h
        refine ⟨m, data, rfl, hb, rfl, ?_⟩
        cases h
        rfl

/-- C10.  The implicit 100 MiB cap: a file whose metadata size exceeds
`100*1024*1024` bytes makes `create_embedded_file` return an error before
the file is read (the result is the same for every possible read
function); the batch loop skips such a file and continues with the rest;
and, when metadata agrees with the bytes actually read, every record the
batch produces carries a payload of at most 100 MiB. -/
theorem createEmbeddedFile_sizeCap (fs : FsModel) (path : String) (n : Nat)
    (hmeta : fs.metadata path = some n) (hbig : MAX_FILE_SIZE < n) :
    (∀ u z, createEmbeddedFile fs u path z =
      .error ("文件过大，跳过嵌入: " ++ fileNameOf path)) ∧
    (∀ rd u z, createEmbeddedFile ⟨fs.pathExists, fs.metadata, rd⟩ u path z =
      createEmbeddedFile fs u path z) ∧
    (∀ uuids z rest i, collectEmbeddedFiles fs uuids z (path :: rest) i =
      collectEmbeddedFiles fs uuids z rest (i + 1)) ∧
    (∀ uuids z paths i,
      (∀ p d, fs.readFile p = some d → fs.metadata p = some d.length) →
      ∀ f ∈ collectEmbeddedFiles fs uuids z paths i,
        f.data.length ≤ MAX_FILE_SIZE) := by
  have herr : ∀ (fs' : FsModel), fs'.metadata path = some n → ∀ u z,
      createEmbeddedFile fs' u path z =
        .error ("文件过大，跳过嵌入: " ++ fileNameOf path) := by
    intro fs' hm u z
    rw [createEmbeddedFile, hm]
    exact if_pos hbig
  refine ⟨herr fs hmeta, ?_, ?_, ?_⟩
  · intro rd u z
    rw [herr ⟨fs.pathExists, fs.metadata, rd⟩ hmeta u z, herr fs hmeta u z]
  · intro uuids z rest i
    rw [collectEmbeddedFiles]
    by_cases hex : fs.pathExists path = true
    · rw [if_pos hex, herr fs hmeta (uuids i) z]
    · rw [if_neg hex]
  · intro uuids z paths
    induction paths with
    | nil =>
      intro i _ f hf
      exact absurd hf (List.not_mem_nil f)
    | cons p rest ih =>
      intro i hco f hf
      rw [collectEmbeddedFiles] at hf
      by_cases hex : fs.pathExists p = true
      · rw [if_pos hex] at hf
        cases hcr : createEmbeddedFile fs (uuids i) p z with
        | error e =>
          rw [hcr] at hf
          exact ih (i + 1) hco f hf
        | ok f' =>
          rw [hcr] at hf
          rcases List.mem_cons.mp hf with h | h
          · subst h
            obtain ⟨m, data, hm, hb, hr, hd⟩ := createEmbeddedFile_ok hcr
            have hmd : m = data.length := by
              injection (hm.symm.trans (hco p data hr))
            rw [hd]
            omega
          · exact ih (i + 1) hco f h
      · rw [if_neg hex] at hf
        exact ih (i + 1) hco f hf

/-- Witness for `createEmbeddedFile_sizeCap` at a concrete oversized file. -/
theorem createEmbeddedFile_sizeCap_witness :
    (FsModel.mk (fun _ => true) (fun _ => some (MAX_FILE_SIZE + 1))
      (fun _ => some [1])).metadata "/tmp/big.mp4" = some (MAX_FILE_SIZE + 1) ∧
    MAX_FILE_SIZE < MAX_FILE_SIZE + 1 ∧
    createEmbeddedFile (FsModel.mk (fun _ => true)
        (fun _ => some (MAX_FILE_SIZE + 1)) (fun _ => some [1]))
      "u" "/tmp/big.mp4" "Z" =
      .error ("文件过大，跳过嵌入: " ++ fileNameOf "/tmp/big.mp4") ∧
    collectEmbeddedFiles (FsModel.mk (fun _ => true)
        (fun _ => some (MAX_FILE_SIZE + 1)) (fun _ => some [1]))
      (fun _ => "u") "Z" ["/tmp/big.mp4"] 0 = [] := by
  have h := createEmbeddedFile_sizeCap
    (FsModel.mk (fun _ => true) (fun _ => some (MAX_FILE_SIZE + 1))
      (fun _ => some [1])) "/tmp/big.mp4" (MAX_FILE_SIZE + 1) rfl (by omega)
  refine ⟨rfl, by omega, h.1 "u" "Z", ?_⟩
  rw [h.2.2.1 (fun _ => "u") "Z" [] 0]
  rfl

theorem snd_mem_enumFrom {α : Type} :
    ∀ (l : List α) (n : Nat) (iv : Nat × α), iv ∈ l.enumFrom n → iv.2 ∈ l := by
  intro l
  induction l with
  | nil => intro n iv h; exact absurd h (List.not_mem_nil iv)
  | cons a t ih =>
    intro n iv h
    rcases List.mem_cons.mp h with h | h
    · subst h
      exact List.mem_cons_self a t
    · exact List.mem_cons_of_mem a (ih (n + 1) iv h)

theorem insertGroup_key_pred {Q : String → Prop} :
    ∀ (m : List (String × List (Nat × EmbeddedFile))) (k : String)
      (v : Nat × EmbeddedFile), (∀ g ∈ m, Q g.1) → Q k →
      ∀ g ∈ insertGroup m k v, Q g.1 := by
  intro m
  induction m with
  | nil =>
    intro k v _ hk g hg
    rw [insertGroup] at hg
    rcases List.mem_cons.mp hg with h | h
    · subst h
      exact hk
    · exact absurd h (List.not_mem_nil g)
  | cons e rest ih =>
    intro k v hm hk g hg
    rw [insertGroup] at hg
    by_cases he : e.1 = k
    · rw [if_pos he] at hg
      rcases List.mem_cons.mp hg with h | h
      · subst h
        exact hm e (List.mem_cons_self e rest)
      · exact hm g (List.mem_cons_of_mem e h)
    · rw [if_neg he] at hg
      rcases List.mem_cons.mp hg with h | h
      · subst h
        exact hm e (List.mem_cons_self e rest)
      · exact ih k v (fun g' hg' => hm g' (List.mem_cons_of_mem e hg')) hk g h

theorem groupByZipId_key_pred {Q : String → Prop} (files : List EmbeddedFile)
    (hf : ∀ f ∈ files, Q f.zip_id) :
    ∀ g ∈ groupByZipId files, Q g.1 := by
  have main : ∀ (l : List (Nat × EmbeddedFile))
      (m : List (String × List (Nat × EmbeddedFile))),
      (∀ g ∈ m, Q g.1) → (∀ iv ∈ l, Q iv.2.zip_id) →
      ∀ g ∈ l.foldl (fun m iv => insertGroup m iv.2.zip_id iv) m, Q g.1 := by
    intro l
    induction l with
    | nil => intro m hm _ g hg; exact hm g hg
    | cons iv rest ih =>
      intro m hm hl g hg
      rw [List.foldl_cons] at hg
      exact ih (insertGroup m iv.2.zip_id iv)
        (insertGroup_key_pred m iv.2.zip_id iv hm
          (hl iv (List.mem_cons_self iv rest)))
        (fun iv' h => hl iv' (List.mem_cons_of_mem iv h)) g hg
  intro g hg
  exact main files.enum [] (fun g' h => absurd h (List.not_mem_nil g'))
    (fun iv h => hf iv.2 (snd_mem_enumFrom files 0 iv h)) g hg

/-- When a marker is not found in the body, the insertion step leaves the
body unchanged. -/
theorem insertAfterParagraph_noop {doc marker : List Char}
    (h : findSubseq doc marker = none) (objectsXml : List Char) :
    insertAfterParagraph doc marker objectsXml = doc := by
  rw [insertAfterParagraph, h]

/-- `add_ole_objects_to_document_xml` returns the body unchanged when
every attachment's chapter marker is absent from it. -/
theorem addOleObjectsToDocumentXml_noop (document_xml : String)
    (files : List EmbeddedFile) (start_rid : Nat)
    (h : ∀ f ∈ files,
      findSubseq document_xml.data ("EMBED_MARKER_" ++ f.zip_id).data = none) :
    addOleObjectsToDocumentXml document_xml files start_rid =
      .ok document_xml := by
  have hkeys := @groupByZipId_key_pred
    (fun z => findSubseq document_xml.data ("EMBED_MARKER_" ++ z).data = none)
    files h
  rw [addOleObjectsToDocumentXml]
  have hfold : ∀ (gs : List (String × List (Nat × EmbeddedFile))),
      (∀ g ∈ gs,
        findSubseq document_xml.data ("EMBED_MARKER_" ++ g.1).data = none) →
      gs.foldl (chapterInsertStep start_rid) document_xml.data =
        document_xml.data := by
    intro gs
    induction gs with
    | nil => intro _; rfl
    | cons g rest ih =>
      intro hgs
      have hstep : chapterInsertStep start_rid document_xml.data g =
          document_xml.data := by
        rw [chapterInsertStep]
        exact insertAfterParagraph_noop (hgs g (List.mem_cons_self g rest)) _
      rw [List.foldl_cons, hstep,
        ih (fun g h0 => hgs g (List.mem_cons_of_mem _ h0))]
  rw [hfold (groupByZipId files) hkeys]

theorem append_infix_head {t1 t2 s : List Char} (h : t1 ++ t2 <:+: s) :
    t1 <:+: s := by
  obtain ⟨p, q, hp⟩ := h
  exact ⟨p, t2 ++ q, by rw [← hp]; simp [List.append_assoc]⟩

/-- Gluing rule: `t` cannot occur in `a ++ b` when it occurs in neither
side and the first character of `b` is not a character of `t` (a crossing
occurrence would have to cover that character). -/
theorem notInfix_append_head {t a b : List Char} {c : Char} {b' : List Char}
    (ha : ¬ t <:+: a) (hb : ¬ t <:+: b)
    (hh : b = c :: b') (hc : c ∉ t) : ¬ t <:+: a ++ b := by
  rintro ⟨p, q, hpq⟩
  have hpq' : p ++ (t ++ q) = a ++ b := by rw [← List.append_assoc]; exact hpq
  by_cases h1 : p.length + t.length ≤ a.length
  · have h0 : (p ++ (t ++ q)).take a.length = a := by rw [hpq', List.take_left]
    rw [List.take_append_eq_append_take,
      List.take_of_length_le (by omega : p.length ≤ a.length),
      List.take_append_eq_append_take,
      List.take_of_length_le (by omega : t.length ≤ a.length - p.length)] at h0
    exact ha ⟨p, q.take (a.length - p.length - t.length),
      by rw [List.append_assoc]; exact h0⟩
  · by_cases h2 : a.length ≤ p.length
    · have h0 : (p ++ (t ++ q)).drop a.length = b := by rw [hpq', List.drop_left]
      rw [List.drop_append_eq_append_drop, Nat.sub_eq_zero_of_le h2,
        List.drop_zero] at h0
      exact hb ⟨p.drop a.length, q, by rw [List.append_assoc]; exact h0⟩
    · push_neg at h1 h2
      have hcel : (a ++ b)[a.length]? = some c := by
        rw [List.getElem?_append_right (Nat.le_refl _), Nat.sub_self, hh,
          List.getElem?_cons_zero]
      have hcel2 : (p ++ (t ++ q))[a.length]? = t[a.length - p.length]? := by
        rw [List.getElem?_append_right (Nat.le_of_lt h2),
          List.getElem?_append_left (by omega)]
      rw [hpq', hcel] at hcel2
      exact hc (List.getElem?_mem hcel2.symm)

/-- Gluing rule: `t` cannot occur in `a ++ b` when it occurs in neither
side and the last character of `a` is not a character of `t`. -/
theorem notInfix_append_last {t a b : List Char} {c : Char} {a' : List Char}
    (ha : ¬ t <:+: a) (hb : ¬ t <:+: b)
    (hl : a = a' ++ [c]) (hc : c ∉ t) : ¬ t <:+: a ++ b := by
  rintro ⟨p, q, hpq⟩
  have hpq' : p ++ (t ++ q) = a ++ b := by rw [← List.append_assoc]; exact hpq
  have hal : a.length = a'.length + 1 := by rw [hl]; simp
  by_cases h1 : p.length + t.length ≤ a.length
  · have h0 : (p ++ (t ++ q)).take a.length = a := by rw [hpq', List.take_left]
    rw [List.take_append_eq_append_take,
      List.take_of_length_le (by omega : p.length ≤ a.length),
      List.take_append_eq_append_take,
      List.take_of_length_le (by omega : t.length ≤ a.length - p.length)] at h0
    exact ha ⟨p, q.take (a.length - p.length - t.length),
      by rw [List.append_assoc]; exact h0⟩
  · by_cases h2 : a.length ≤ p.length
    · have h0 : (p ++ (t ++ q)).drop a.length = b := by rw [hpq', List.drop_left]
      rw [List.drop_append_eq_append_drop, Nat.sub_eq_zero_of_le h2,
        List.drop_zero] at h0
      exact hb ⟨p.drop a.length, q, by rw [List.append_assoc]; exact h0⟩
    · push_neg at h1 h2
      have hcel : (a ++ b)[a'.length]? = some c := by
        rw [List.getElem?_append_left (by omega : a'.length < a.length), hl,
          List.getElem?_append_right (Nat.le_refl _), Nat.sub_self,
          List.getElem?_cons_zero]
      have hcel2 : (p ++ (t ++ q))[a'.length]? = t[a'.length - p.length]? := by
        rw [List.getElem?_append_right (by omega : p.length ≤ a'.length),
          List.getElem?_append_left (by omega)]
      rw [hpq', hcel] at hcel2
      exact hc (List.getElem?_mem hcel2.symm)

/-- `t` cannot occur in a list whose characters all satisfy `P` when some
character of `t` does not. -/
theorem notInfix_of_charset {t s : List Char} {P : Char → Prop}
    (hs : ∀ c ∈ s, P c) {c0 : Char} (hc0 : c0 ∈ t) (hP : ¬ P c0) :
    ¬ t <:+: s :=
  fun h => hP (hs c0 (h.subset hc0))


theorem head?_append_of_head? {l₁ l₂ : List Char} {c : Char}
    (h : l₁.head? = some c) : (l₁ ++ l₂).head? = some c := by
  cases l₁ with
  | nil => cases h
  | cons x xs => exact h

theorem getLast?_decomp :
    ∀ {l : List Char} {c : Char}, l.getLast? = some c → ∃ l', l = l' ++ [c] := by
  intro l
  induction l with
  | nil => intro c h; cases h
  | cons x xs ih =>
    intro c h
    cases xs with
    | nil =>
      refine ⟨[], ?_⟩
      have : x = c := by
        have : some x = some c := h
        injection this
      rw [this]
      rfl
    | cons y ys =>
      rw [List.getLast?_cons_cons] at h
      obtain ⟨l', hl⟩ := ih h
      exact ⟨x :: l', by rw [hl]; rfl⟩

theorem getLast?_append_of_getLast? {l₁ l₂ : List Char} {c : Char}
    (h : l₂.getLast? = some c) : (l₁ ++ l₂).getLast? = some c := by
  obtain ⟨l', hl⟩ := getLast?_decomp h
  rw [hl, ← List.append_assoc]
  exact List.getLast?_concat _

theorem notInfix_append_headC {t a b : List Char} {c : Char}
    (ha : ¬ t <:+: a) (hb : ¬ t <:+: b)
    (hh : b.head? = some c) (hc : c ∉ t) : ¬ t <:+: a ++ b := by
  cases b with
  | nil => cases hh
  | cons x b' =>
    have hx : x = c := by injection hh
    exact notInfix_append_head ha hb (by rw [hx]) hc

theorem notInfix_append_lastC {t a b : List Char} {c : Char}
    (ha : ¬ t <:+: a) (hb : ¬ t <:+: b)
    (hl : a.getLast? = some c) (hc : c ∉ t) : ¬ t <:+: a ++ b := by
  obtain ⟨a', hd⟩ := getLast?_decomp hl
  exact notInfix_append_last ha hb hd hc

theorem digitChar_mem (m : Nat) (h : m < 10) :
    Nat.digitChar m ∈ ("0123456789" : String).data := by
  interval_cases m <;> decide

theorem toDigitsCore_charset :
    ∀ (fuel n : Nat) (acc : List Char),
      (∀ c ∈ acc, c ∈ ("0123456789" : String).data) →
      ∀ c ∈ Nat.toDigitsCore 10 fuel n acc, c ∈ ("0123456789" : String).data := by
  intro fuel
  induction fuel with
  | zero => intro n acc hacc c hc; exact hacc c hc
  | succ fuel ih =>
    intro n acc hacc c hc
    rw [Nat.toDigitsCore] at hc
    by_cases hz : n / 10 = 0
    · rw [if_pos hz] at hc
      rcases List.mem_cons.mp hc with h | h
      · subst h
        exact digitChar_mem _ (Nat.mod_lt n (by decide))
      · exact hacc c h
    · rw [if_neg hz] at hc
      refine ih (n / 10) _ ?_ c hc
      intro c' hc'
      rcases List.mem_cons.mp hc' with h | h
      · subst h
        exact digitChar_mem _ (Nat.mod_lt n (by decide))
      · exact hacc c' h

theorem toString_nat_charset (n : Nat) :
    ∀ c ∈ (toString n).data, c ∈ ("0123456789" : String).data := by
  intro c hc
  have : (toString n).data = Nat.toDigitsCore 10 (n + 1) n [] := rfl
  rw [this] at hc
  exact toDigitsCore_charset (n + 1) n [] (by intro c h; cases h) c hc

-- hex charset
theorem hexGo_charset :
    ∀ (fuel m : Nat) (acc : List Char),
      (∀ c ∈ acc, c ∈ ("0123456789ABCDEF" : String).data) →
      ∀ c ∈ hexGo fuel m acc, c ∈ ("0123456789ABCDEF" : String).data := by
  intro fuel
  induction fuel with
  | zero => intro m acc hacc c hc; exact hacc c hc
  | succ fuel ih =>
    intro m acc hacc c hc
    rw [hexGo] at hc
    by_cases hz : m = 0
    · rw [if_pos hz] at hc
      exact hacc c hc
    · rw [if_neg hz] at hc
      refine ih (m / 16) _ ?_ c hc
      intro c' hc'
      rcases List.mem_cons.mp hc' with h | h
      · subst h
        have h16 : m % 16 < 16 := Nat.mod_lt m (by decide)
        revert h16
        generalize m % 16 = k
        intro h16
        interval_cases k <;> decide
      · exact hacc c' h

theorem hex08_charset (n : Nat) :
    ∀ c ∈ (hex08 n).data, c ∈ ("0123456789ABCDEF" : String).data := by
  intro c hc
  rw [hex08] at hc
  simp only [] at hc
  rcases List.mem_append.mp hc with h | h
  · rw [List.eq_of_mem_replicate h]
    decide
  · rw [hexDigits] at h
    by_cases hz : n = 0
    · rw [if_pos hz] at h
      rcases List.mem_cons.mp h with h' | h'
      · rw [h']; decide
      · cases h'
    · rw [if_neg hz] at h
      exact hexGo_charset n n [] (by intro c' h'; cases h') c h

-- String.join cons unfolding
theorem string_foldl_append (l : List String) :
    ∀ a : String, l.foldl (· ++ ·) a = a ++ String.join l := by
  induction l with
  | nil => intro a; exact (String.append_empty a).symm
  | cons x xs ih =>
    intro a
    show (x :: xs).foldl (· ++ ·) a = a ++ String.join (x :: xs)
    rw [List.foldl_cons, ih (a ++ x)]
    have : String.join (x :: xs) = x ++ String.join xs := by
      show (x :: xs).foldl (· ++ ·) "" = x ++ String.join xs
      rw [List.foldl_cons, ih ("" ++ x)]
      congr 1
    rw [this, String.append_assoc]

theorem string_join_cons (x : String) (xs : List String) :
    String.join (x :: xs) = x ++ String.join xs := by
  show (x :: xs).foldl (· ++ ·) "" = x ++ String.join xs
  rw [List.foldl_cons, string_foldl_append]
  congr 1

set_option maxRecDepth 100000 in
theorem oleObjectFragment_decomp (r i : Nat) :
    (oleObjectFragment r i).data =
      ("\n<w:p w14:paraId=\"" : String).data ++
      ((hex08 (0x10000000 + i)).data ++
      (("\"><w:pPr><w:rPr><w:rFonts w:hint=\"default\"/><w:lang w:val=\"en-US\"/></w:rPr></w:pPr><w:r><w:rPr><w:rFonts w:hint=\"default\"/><w:lang w:val=\"en-US\"/></w:rPr><w:object><v:shape id=\"" : String).data ++
      (("_x0000_i" : String).data ++
      ((toString (1025 + i)).data ++
      (("\" o:spt=\"75\" type=\"#_x0000_t75\" style=\"height:65.25pt;width:72.4pt;\" o:ole=\"t\" filled=\"f\" o:preferrelative=\"t\" stroked=\"f\" coordsize=\"21600,21600\"><v:fill on=\"f\" focussize=\"0,0\"/><v:stroke on=\"f\"/><v:imagedata " : String).data ++
      (("r:id=\"" : String).data ++
      (("rId" : String).data ++
      ((toString (r + i * 2 + 1)).data ++
      (("\"" : String).data ++
      ((" o:title=\"\"/><o:lock v:ext=\"edit\" aspectratio=\"t\"/><w10:wrap type=\"none\"/><w10:anchorlock/></v:shape><o:OLEObject Type=\"Embed\" ProgID=\"Package\" ShapeID=\"" : String).data ++
      (("_x0000_i" : String).data ++
      ((toString (1025 + i)).data ++
      (("\" DrawAspect=\"Icon\" ObjectID=\"" : String).data ++
      (("_146807572" : String).data ++
      ((toString i).data ++
      (("\" " : String).data ++
      (("r:id=\"" : String).data ++
      (("rId" : String).data ++
      ((toString (r + i * 2)).data ++
      (("\"" : String).data ++
      (("><o:LockedField>false</o:LockedField></o:OLEObject></w:object></w:r></w:p>\n" : String).data))))))))))))))))))))) := by
  simp [oleObjectFragment, docImgRid, docOleRid, String.data_append,
    List.append_assoc]

set_option maxRecDepth 200000 in
theorem fragment_no_marker (r i : Nat) :
    ¬ ("EMBED_MARKER_" : String).data <:+: (oleObjectFragment r i).data := by
  rw [oleObjectFragment_decomp]
  have h22 : ¬ ("EMBED_MARKER_" : String).data <:+:
      ("><o:LockedField>false</o:LockedField></o:OLEObject></w:object></w:r></w:p>\n" : String).data := by decide
  have h21 : ¬ ("EMBED_MARKER_" : String).data <:+:
      ("\"" : String).data ++
      (("><o:LockedField>false</o:LockedField></o:OLEObject></w:object></w:r></w:p>\n" : String).data) :=
    notInfix_append_headC (by decide) h22 (show (("><o:LockedField>false</o:LockedField></o:OLEObject></w:object></w:r></w:p>\n" : String).data).head? = some '>' by decide) (by decide)
  have h20 : ¬ ("EMBED_MARKER_" : String).data <:+:
      (toString (r + i * 2)).data ++
      (("\"" : String).data ++
      (("><o:LockedField>false</o:LockedField></o:OLEObject></w:object></w:r></w:p>\n" : String).data)) :=
    notInfix_append_headC (notInfix_of_charset (toString_nat_charset _) (show 'M' ∈ ("EMBED_MARKER_" : String).data by decide) (by decide)) h21 (head?_append_of_head? (show (("\"" : String).data).head? = some '\"' by decide)) (by decide)
  have h19 : ¬ ("EMBED_MARKER_" : String).data <:+:
      ("rId" : String).data ++
      ((toString (r + i * 2)).data ++
      (("\"" : String).data ++
      (("><o:LockedField>false</o:LockedField></o:OLEObject></w:object></w:r></w:p>\n" : String).data))) :=
    notInfix_append_lastC (by decide) h20 (show (("rId" : String).data).getLast? = some 'd' by decide) (by decide)
  have h18 : ¬ ("EMBED_MARKER_" : String).data <:+:
      ("r:id=\"" : String).data ++
      (("rId" : String).data ++
      ((toString (r + i * 2)).data ++
      (("\"" : String).data ++
      (("><o:LockedField>false</o:LockedField></o:OLEObject></w:object></w:r></w:p>\n" : String).data)))) :=
    notInfix_append_headC (by decide) h19 (head?_append_of_head? (show (("rId" : String).data).head? = some 'r' by decide)) (by decide)
  have h17 : ¬ ("EMBED_MARKER_" : String).data <:+:
      ("\" " : String).data ++
      (("r:id=\"" : String).data ++
      (("rId" : String).data ++
      ((toString (r + i * 2)).data ++
      (("\"" : String).data ++
      (("><o:LockedField>false</o:LockedField></o:OLEObject></w:object></w:r></w:p>\n" : String).data))))) :=
    notInfix_append_headC (by decide) h18 (head?_append_of_head? (show (("r:id=\"" : String).data).head? = some 'r' by decide)) (by decide)
  have h16 : ¬ ("EMBED_MARKER_" : String).data <:+:
      (toString i).data ++
      (("\" " : String).data ++
      (("r:id=\"" : String).data ++
      (("rId" : String).data ++
      ((toString (r + i * 2)).data ++
      (("\"" : String).data ++
      (("><o:LockedField>false</o:LockedField></o:OLEObject></w:object></w:r></w:p>\n" : String).data)))))) :=
    notInfix_append_headC (notInfix_of_charset (toString_nat_charset _) (show 'M' ∈ ("EMBED_MARKER_" : String).data by decide) (by decide)) h17 (head?_append_of_head? (show (("\" " : String).data).head? = some '\"' by decide)) (by decide)
  have h15 : ¬ ("EMBED_MARKER_" : String).data <:+:
      ("_146807572" : String).data ++
      ((toString i).data ++
      (("\" " : String).data ++
      (("r:id=\"" : String).data ++
      (("rId" : String).data ++
      ((toString (r + i * 2)).data ++
      (("\"" : String).data ++
      (("><o:LockedField>false</o:LockedField></o:OLEObject></w:object></w:r></w:p>\n" : String).data))))))) :=
    notInfix_append_lastC (by decide) h16 (show (("_146807572" : String).data).getLast? = some '2' by decide) (by decide)
  have h14 : ¬ ("EMBED_MARKER_" : String).data <:+:
      ("\" DrawAspect=\"Icon\" ObjectID=\"" : String).data ++
      (("_146807572" : String).data ++
      ((toString i).data ++
      (("\" " : String).data ++
      (("r:id=\"" : String).data ++
      (("rId" : String).data ++
      ((toString (r + i * 2)).data ++
      (("\"" : String).data ++
      (("><o:LockedField>false</o:LockedField></o:OLEObject></w:object></w:r></w:p>\n" : String).data)))))))) :=
    notInfix_append_lastC (by decide) h15 (show (("\" DrawAspect=\"Icon\" ObjectID=\"" : String).data).getLast? = some '\"' by decide) (by decide)
  have h13 : ¬ ("EMBED_MARKER_" : String).data <:+:
      (toString (1025 + i)).data ++
      (("\" DrawAspect=\"Icon\" ObjectID=\"" : String).data ++
      (("_146807572" : String).data ++
      ((toString i).data ++
      (("\" " : String).data ++
      (("r:id=\"" : String).data ++
      (("rId" : String).data ++
      ((toString (r + i * 2)).data ++
      (("\"" : String).data ++
      (("><o:LockedField>false</o:LockedField></o:OLEObject></w:object></w:r></w:p>\n" : String).data))))))))) :=
    notInfix_append_headC (notInfix_of_charset (toString_nat_charset _) (show 'M' ∈ ("EMBED_MARKER_" : String).data by decide) (by decide)) h14 (head?_append_of_head? (show (("\" DrawAspect=\"Icon\" ObjectID=\"" : String).data).head? = some '\"' by decide)) (by decide)
  have h12 : ¬ ("EMBED_MARKER_" : String).data <:+:
      ("_x0000_i" : String).data ++
      ((toString (1025 + i)).data ++
      (("\" DrawAspect=\"Icon\" ObjectID=\"" : String).data ++
      (("_146807572" : String).data ++
      ((toString i).data ++
      (("\" " : String).data ++
      (("r:id=\"" : String).data ++
      (("rId" : String).data ++
      ((toString (r + i * 2)).data ++
      (("\"" : String).data ++
      (("><o:LockedField>false</o:LockedField></o:OLEObject></w:object></w:r></w:p>\n" : String).data)))))))))) :=
    notInfix_append_lastC (by decide) h13 (show (("_x0000_i" : String).data).getLast? = some 'i' by decide) (by decide)
  have h11 : ¬ ("EMBED_MARKER_" : String).data <:+:
      (" o:title=\"\"/><o:lock v:ext=\"edit\" aspectratio=\"t\"/><w10:wrap type=\"none\"/><w10:anchorlock/></v:shape><o:OLEObject Type=\"Embed\" ProgID=\"Package\" ShapeID=\"" : String).data ++
      (("_x0000_i" : String).data ++
      ((toString (1025 + i)).data ++
      (("\" DrawAspect=\"Icon\" ObjectID=\"" : String).data ++
      (("_146807572" : String).data ++
      ((toString i).data ++
      (("\" " : String).data ++
      (("r:id=\"" : String).data ++
      (("rId" : String).data ++
      ((toString (r + i * 2)).data ++
      (("\"" : String).data ++
      (("><o:LockedField>false</o:LockedField></o:OLEObject></w:object></w:r></w:p>\n" : String).data))))))))))) :=
    notInfix_append_lastC (by decide) h12 (show ((" o:title=\"\"/><o:lock v:ext=\"edit\" aspectratio=\"t\"/><w10:wrap type=\"none\"/><w10:anchorlock/></v:shape><o:OLEObject Type=\"Embed\" ProgID=\"Package\" ShapeID=\"" : String).data).getLast? = some '\"' by decide) (by decide)
  have h10 : ¬ ("EMBED_MARKER_" : String).data <:+:
      ("\"" : String).data ++
      ((" o:title=\"\"/><o:lock v:ext=\"edit\" aspectratio=\"t\"/><w10:wrap type=\"none\"/><w10:anchorlock/></v:shape><o:OLEObject Type=\"Embed\" ProgID=\"Package\" ShapeID=\"" : String).data ++
      (("_x0000_i" : String).data ++
      ((toString (1025 + i)).data ++
      (("\" DrawAspect=\"Icon\" ObjectID=\"" : String).data ++
      (("_146807572" : String).data ++
      ((toString i).data ++
      (("\" " : String).data ++
      (("r:id=\"" : String).data ++
      (("rId" : String).data ++
      ((toString (r + i * 2)).data ++
      (("\"" : String).data ++
      (("><o:LockedField>false</o:LockedField></o:OLEObject></w:object></w:r></w:p>\n" : String).data)))))))))))) :=
    notInfix_append_headC (by decide) h11 (head?_append_of_head? (show ((" o:title=\"\"/><o:lock v:ext=\"edit\" aspectratio=\"t\"/><w10:wrap type=\"none\"/><w10:anchorlock/></v:shape><o:OLEObject Type=\"Embed\" ProgID=\"Package\" ShapeID=\"" : String).data).head? = some ' ' by decide)) (by decide)
  have h9 : ¬ ("EMBED_MARKER_" : String).data <:+:
      (toString (r + i * 2 + 1)).data ++
      (("\"" : String).data ++
      ((" o:title=\"\"/><o:lock v:ext=\"edit\" aspectratio=\"t\"/><w10:wrap type=\"none\"/><w10:anchorlock/></v:shape><o:OLEObject Type=\"Embed\" ProgID=\"Package\" ShapeID=\"" : String).data ++
      (("_x0000_i" : String).data ++
      ((toString (1025 + i)).data ++
      (("\" DrawAspect=\"Icon\" ObjectID=\"" : String).data ++
      (("_146807572" : String).data ++
      ((toString i).data ++
      (("\" " : String).data ++
      (("r:id=\"" : String).data ++
      (("rId" : String).data ++
      ((toString (r + i * 2)).data ++
      (("\"" : String).data ++
      (("><o:LockedField>false</o:LockedField></o:OLEObject></w:object></w:r></w:p>\n" : String).data))))))))))))) :=
    notInfix_append_headC (notInfix_of_charset (toString_nat_charset _) (show 'M' ∈ ("EMBED_MARKER_" : String).data by decide) (by decide)) h10 (head?_append_of_head? (show (("\"" : String).data).head? = some '\"' by decide)) (by decide)
  have h8 : ¬ ("EMBED_MARKER_" : String).data <:+:
      ("rId" : String).data ++
      ((toString (r + i * 2 + 1)).data ++
      (("\"" : String).data ++
      ((" o:title=\"\"/><o:lock v:ext=\"edit\" aspectratio=\"t\"/><w10:wrap type=\"none\"/><w10:anchorlock/></v:shape><o:OLEObject Type=\"Embed\" ProgID=\"Package\" ShapeID=\"" : String).data ++
      (("_x0000_i" : String).data ++
      ((toString (1025 + i)).data ++
      (("\" DrawAspect=\"Icon\" ObjectID=\"" : String).data ++
      (("_146807572" : String).data ++
      ((toString i).data ++
      (("\" " : String).data ++
      (("r:id=\"" : String).data ++
      (("rId" : String).data ++
      ((toString (r + i * 2)).data ++
      (("\"" : String).data ++
      (("><o:LockedField>false</o:LockedField></o:OLEObject></w:object></w:r></w:p>\n" : String).data)))))))))))))) :=
    notInfix_append_lastC (by decide) h9 (show (("rId" : String).data).getLast? = some 'd' by decide) (by decide)
  have h7 : ¬ ("EMBED_MARKER_" : String).data <:+:
      ("r:id=\"" : String).data ++
      (("rId" : String).data ++
      ((toString (r + i * 2 + 1)).data ++
      (("\"" : String).data ++
      ((" o:title=\"\"/><o:lock v:ext=\"edit\" aspectratio=\"t\"/><w10:wrap type=\"none\"/><w10:anchorlock/></v:shape><o:OLEObject Type=\"Embed\" ProgID=\"Package\" ShapeID=\"" : String).data ++
      (("_x0000_i" : String).data ++
      ((toString (1025 + i)).data ++
      (("\" DrawAspect=\"Icon\" ObjectID=\"" : String).data ++
      (("_146807572" : String).data ++
      ((toString i).data ++
      (("\" " : String).data ++
      (("r:id=\"" : String).data ++
      (("rId" : String).data ++
      ((toString (r + i * 2)).data ++
      (("\"" : String).data ++
      (("><o:LockedField>false</o:LockedField></o:OLEObject></w:object></w:r></w:p>\n" : String).data))))))))))))))) :=
    notInfix_append_headC (by decide) h8 (head?_append_of_head? (show (("rId" : String).data).head? = some 'r' by decide)) (by decide)
  have h6 : ¬ ("EMBED_MARKER_" : String).data <:+:
      ("\" o:spt=\"75\" type=\"#_x0000_t75\" style=\"height:65.25pt;width:72.4pt;\" o:ole=\"t\" filled=\"f\" o:preferrelative=\"t\" stroked=\"f\" coordsize=\"21600,21600\"><v:fill on=\"f\" focussize=\"0,0\"/><v:stroke on=\"f\"/><v:imagedata " : String).data ++
      (("r:id=\"" : String).data ++
      (("rId" : String).data ++
      ((toString (r + i * 2 + 1)).data ++
      (("\"" : String).data ++
      ((" o:title=\"\"/><o:lock v:ext=\"edit\" aspectratio=\"t\"/><w10:wrap type=\"none\"/><w10:anchorlock/></v:shape><o:OLEObject Type=\"Embed\" ProgID=\"Package\" ShapeID=\"" : String).data ++
      (("_x0000_i" : String).data ++
      ((toString (1025 + i)).data ++
      (("\" DrawAspect=\"Icon\" ObjectID=\"" : String).data ++
      (("_146807572" : String).data ++
      ((toString i).data ++
      (("\" " : String).data ++
      (("r:id=\"" : String).data ++
      (("rId" : String).data ++
      ((toString (r + i * 2)).data ++
      (("\"" : String).data ++
      (("><o:LockedField>false</o:LockedField></o:OLEObject></w:object></w:r></w:p>\n" : String).data)))))))))))))))) :=
    notInfix_append_headC (by decide) h7 (head?_append_of_head? (show (("r:id=\"" : String).data).head? = some 'r' by decide)) (by decide)
  have h5 : ¬ ("EMBED_MARKER_" : String).data <:+:
      (toString (1025 + i)).data ++
      (("\" o:spt=\"75\" type=\"#_x0000_t75\" style=\"height:65.25pt;width:72.4pt;\" o:ole=\"t\" filled=\"f\" o:preferrelative=\"t\" stroked=\"f\" coordsize=\"21600,21600\"><v:fill on=\"f\" focussize=\"0,0\"/><v:stroke on=\"f\"/><v:imagedata " : String).data ++
      (("r:id=\"" : String).data ++
      (("rId" : String).data ++
      ((toString (r + i * 2 + 1)).data ++
      (("\"" : String).data ++
      ((" o:title=\"\"/><o:lock v:ext=\"edit\" aspectratio=\"t\"/><w10:wrap type=\"none\"/><w10:anchorlock/></v:shape><o:OLEObject Type=\"Embed\" ProgID=\"Package\" ShapeID=\"" : String).data ++
      (("_x0000_i" : String).data ++
      ((toString (1025 + i)).data ++
      (("\" DrawAspect=\"Icon\" ObjectID=\"" : String).data ++
      (("_146807572" : String).data ++
      ((toString i).data ++
      (("\" " : String).data ++
      (("r:id=\"" : String).data ++
      (("rId" : String).data ++
      ((toString (r + i * 2)).data ++
      (("\"" : String).data ++
      (("><o:LockedField>false</o:LockedField></o:OLEObject></w:object></w:r></w:p>\n" : String).data))))))))))))))))) :=
    notInfix_append_headC (notInfix_of_charset (toString_nat_charset _) (show 'M' ∈ ("EMBED_MARKER_" : String).data by decide) (by decide)) h6 (head?_append_of_head? (show (("\" o:spt=\"75\" type=\"#_x0000_t75\" style=\"height:65.25pt;width:72.4pt;\" o:ole=\"t\" filled=\"f\" o:preferrelative=\"t\" stroked=\"f\" coordsize=\"21600,21600\"><v:fill on=\"f\" focussize=\"0,0\"/><v:stroke on=\"f\"/><v:imagedata " : String).data).head? = some '\"' by decide)) (by decide)
  have h4 : ¬ ("EMBED_MARKER_" : String).data <:+:
      ("_x0000_i" : String).data ++
      ((toString (1025 + i)).data ++
      (("\" o:spt=\"75\" type=\"#_x0000_t75\" style=\"height:65.25pt;width:72.4pt;\" o:ole=\"t\" filled=\"f\" o:preferrelative=\"t\" stroked=\"f\" coordsize=\"21600,21600\"><v:fill on=\"f\" focussize=\"0,0\"/><v:stroke on=\"f\"/><v:imagedata " : String).data ++
      (("r:id=\"" : String).data ++
      (("rId" : String).data ++
      ((toString (r + i * 2 + 1)).data ++
      (("\"" : String).data ++
      ((" o:title=\"\"/><o:lock v:ext=\"edit\" aspectratio=\"t\"/><w10:wrap type=\"none\"/><w10:anchorlock/></v:shape><o:OLEObject Type=\"Embed\" ProgID=\"Package\" ShapeID=\"" : String).data ++
      (("_x0000_i" : String).data ++
      ((toString (1025 + i)).data ++
      (("\" DrawAspect=\"Icon\" ObjectID=\"" : String).data ++
      (("_146807572" : String).data ++
      ((toString i).data ++
      (("\" " : String).data ++
      (("r:id=\"" : String).data ++
      (("rId" : String).data ++
      ((toString (r + i * 2)).data ++
      (("\"" : String).data ++
      (("><o:LockedField>false</o:LockedField></o:OLEObject></w:object></w:r></w:p>\n" : String).data)))))))))))))))))) :=
    notInfix_append_lastC (by decide) h5 (show (("_x0000_i" : String).data).getLast? = some 'i' by decide) (by decide)
  have h3 : ¬ ("EMBED_MARKER_" : String).data <:+:
      ("\"><w:pPr><w:rPr><w:rFonts w:hint=\"default\"/><w:lang w:val=\"en-US\"/></w:rPr></w:pPr><w:r><w:rPr><w:rFonts w:hint=\"default\"/><w:lang w:val=\"en-US\"/></w:rPr><w:object><v:shape id=\"" : String).data ++
      (("_x0000_i" : String).data ++
      ((toString (1025 + i)).data ++
      (("\" o:spt=\"75\" type=\"#_x0000_t75\" style=\"height:65.25pt;width:72.4pt;\" o:ole=\"t\" filled=\"f\" o:preferrelative=\"t\" stroked=\"f\" coordsize=\"21600,21600\"><v:fill on=\"f\" focussize=\"0,0\"/><v:stroke on=\"f\"/><v:imagedata " : String).data ++
      (("r:id=\"" : String).data ++
      (("rId" : String).data ++
      ((toString (r + i * 2 + 1)).data ++
      (("\"" : String).data ++
      ((" o:title=\"\"/><o:lock v:ext=\"edit\" aspectratio=\"t\"/><w10:wrap type=\"none\"/><w10:anchorlock/></v:shape><o:OLEObject Type=\"Embed\" ProgID=\"Package\" ShapeID=\"" : String).data ++
      (("_x0000_i" : String).data ++
      ((toString (1025 + i)).data ++
      (("\" DrawAspect=\"Icon\" ObjectID=\"" : String).data ++
      (("_146807572" : String).data ++
      ((toString i).data ++
      (("\" " : String).data ++
      (("r:id=\"" : String).data ++
      (("rId" : String).data ++
      ((toString (r + i * 2)).data ++
      (("\"" : String).data ++
      (("><o:LockedField>false</o:LockedField></o:OLEObject></w:object></w:r></w:p>\n" : String).data))))))))))))))))))) :=
    notInfix_append_lastC (by decide) h4 (show (("\"><w:pPr><w:rPr><w:rFonts w:hint=\"default\"/><w:lang w:val=\"en-US\"/></w:rPr></w:pPr><w:r><w:rPr><w:rFonts w:hint=\"default\"/><w:lang w:val=\"en-US\"/></w:rPr><w:object><v:shape id=\"" : String).data).getLast? = some '\"' by decide) (by decide)
  have h2 : ¬ ("EMBED_MARKER_" : String).data <:+:
      (hex08 (0x10000000 + i)).data ++
      (("\"><w:pPr><w:rPr><w:rFonts w:hint=\"default\"/><w:lang w:val=\"en-US\"/></w:rPr></w:pPr><w:r><w:rPr><w:rFonts w:hint=\"default\"/><w:lang w:val=\"en-US\"/></w:rPr><w:object><v:shape id=\"" : String).data ++
      (("_x0000_i" : String).data ++
      ((toString (1025 + i)).data ++
      (("\" o:spt=\"75\" type=\"#_x0000_t75\" style=\"height:65.25pt;width:72.4pt;\" o:ole=\"t\" filled=\"f\" o:preferrelative=\"t\" stroked=\"f\" coordsize=\"21600,21600\"><v:fill on=\"f\" focussize=\"0,0\"/><v:stroke on=\"f\"/><v:imagedata " : String).data ++
      (("r:id=\"" : String).data ++
      (("rId" : String).data ++
      ((toString (r + i * 2 + 1)).data ++
      (("\"" : String).data ++
      ((" o:title=\"\"/><o:lock v:ext=\"edit\" aspectratio=\"t\"/><w10:wrap type=\"none\"/><w10:anchorlock/></v:shape><o:OLEObject Type=\"Embed\" ProgID=\"Package\" ShapeID=\"" : String).data ++
      (("_x0000_i" : String).data ++
      ((toString (1025 + i)).data ++
      (("\" DrawAspect=\"Icon\" ObjectID=\"" : String).data ++
      (("_146807572" : String).data ++
      ((toString i).data ++
      (("\" " : String).data ++
      (("r:id=\"" : String).data ++
      (("rId" : String).data ++
      ((toString (r + i * 2)).data ++
      (("\"" : String).data ++
      (("><o:LockedField>false</o:LockedField></o:OLEObject></w:object></w:r></w:p>\n" : String).data)))))))))))))))))))) :=
    notInfix_append_headC (notInfix_of_charset (hex08_charset _) (show 'M' ∈ ("EMBED_MARKER_" : String).data by decide) (by decide)) h3 (head?_append_of_head? (show (("\"><w:pPr><w:rPr><w:rFonts w:hint=\"default\"/><w:lang w:val=\"en-US\"/></w:rPr></w:pPr><w:r><w:rPr><w:rFonts w:hint=\"default\"/><w:lang w:val=\"en-US\"/></w:rPr><w:object><v:shape id=\"" : String).data).head? = some '\"' by decide)) (by decide)
  exact notInfix_append_lastC (by decide) h2 (show (("\n<w:p w14:paraId=\"" : String).data).getLast? = some '\"' by decide) (by decide)

theorem fragment_head (r i : Nat) :
    (oleObjectFragment r i).data.head? = some '\n' := by
  rw [oleObjectFragment_decomp]
  exact head?_append_of_head? (by decide)

theorem fragment_last (r i : Nat) :
    (oleObjectFragment r i).data.getLast? = some '\n' := by
  rw [oleObjectFragment_decomp]
  refine getLast?_append_of_getLast? ?_
  refine getLast?_append_of_getLast? ?_
  refine getLast?_append_of_getLast? ?_
  refine getLast?_append_of_getLast? ?_
  refine getLast?_append_of_getLast? ?_
  refine getLast?_append_of_getLast? ?_
  refine getLast?_append_of_getLast? ?_
  refine getLast?_append_of_getLast? ?_
  refine getLast?_append_of_getLast? ?_
  refine getLast?_append_of_getLast? ?_
  refine getLast?_append_of_getLast? ?_
  refine getLast?_append_of_getLast? ?_
  refine getLast?_append_of_getLast? ?_
  refine getLast?_append_of_getLast? ?_
  refine getLast?_append_of_getLast? ?_
  refine getLast?_append_of_getLast? ?_
  refine getLast?_append_of_getLast? ?_
  refine getLast?_append_of_getLast? ?_
  refine getLast?_append_of_getLast? ?_
  refine getLast?_append_of_getLast? ?_
  refine getLast?_append_of_getLast? ?_
  decide

theorem block_no_marker (r : Nat) :
    ∀ (l : List (Nat × EmbeddedFile)),
      ¬ ("EMBED_MARKER_" : String).data <:+:
        (String.join (l.map (fun iv => oleObjectFragment r iv.1))).data := by
  intro l
  induction l with
  | nil =>
    intro h
    have := List.eq_nil_of_infix_nil h
    simp at this
  | cons iv rest ih =>
    rw [List.map_cons, string_join_cons, String.data_append]
    exact notInfix_append_lastC (fragment_no_marker r iv.1) ih
      (fragment_last r iv.1) (by decide)

theorem block_shape (r : Nat) :
    ∀ (l : List (Nat × EmbeddedFile)),
      (String.join (l.map (fun iv => oleObjectFragment r iv.1))).data = [] ∨
      ((String.join (l.map (fun iv => oleObjectFragment r iv.1))).data.head? =
          some '\n' ∧
        (String.join (l.map (fun iv =>
          oleObjectFragment r iv.1))).data.getLast? = some '\n') := by
  intro l
  induction l with
  | nil => exact Or.inl rfl
  | cons iv rest ih =>
    rw [List.map_cons, string_join_cons, String.data_append]
    rcases ih with h | ⟨h1, h2⟩
    · rw [h, List.append_nil]
      exact Or.inr ⟨fragment_head r iv.1, fragment_last r iv.1⟩
    · exact Or.inr ⟨head?_append_of_head? (fragment_head r iv.1),
        getLast?_append_of_getLast? h2⟩

theorem findSubseq_none_of_no_occurrence {hay pat : List Char}
    (h : ¬ pat <:+: hay) : findSubseq hay pat = none := by
  cases hfs : findSubseq hay pat with
  | none => rfl
  | some p =>
    exact absurd (((findSubseq_some hfs).2.isInfix).trans
      (List.drop_suffix p hay).isInfix) h

/-- Inserting a block that neither contains `t` nor lets `t` straddle its
`'\n'` borders cannot create an occurrence of `t`. -/
theorem insertAfterParagraph_no_occurrence {t res marker xml : List Char}
    (hres : ¬ t <:+: res) (hxml : ¬ t <:+: xml)
    (hshape : xml = [] ∨ (xml.head? = some '\n' ∧ xml.getLast? = some '\n'))
    (hnl : '\n' ∉ t) :
    ¬ t <:+: insertAfterParagraph res marker xml := by
  have heq : insertAfterParagraph res marker xml = res ∨
      ∃ ip, insertAfterParagraph res marker xml =
        res.take ip ++ xml ++ res.drop ip := by
    rw [insertAfterParagraph]
    cases findSubseq res marker with
    | none => exact Or.inl rfl
    | some pos =>
      simp only []
      cases findSubseq (res.drop pos) "</w:p>".data with
      | none => exact Or.inl rfl
      | some endPos => exact Or.inr ⟨pos + endPos + "</w:p>".length, rfl⟩
  rcases heq with h | ⟨ip, h⟩
  · rw [h]
    exact hres
  · rw [h]
    rcases hshape with h0 | ⟨hh, hl⟩
    · rw [h0, List.append_nil, List.take_append_drop]
      exact hres
    · have hta : ¬ t <:+: res.take ip :=
        fun hx => hres (hx.trans (List.take_prefix _ res).isInfix)
      have htd : ¬ t <:+: res.drop ip :=
        fun hx => hres (hx.trans (List.drop_suffix _ res).isInfix)
      have h1 : ¬ t <:+: res.take ip ++ xml :=
        notInfix_append_headC hta hxml hh hnl
      have h2 : ¬ t <:+: (res.take ip ++ xml) ++ res.drop ip :=
        notInfix_append_lastC h1 htd (getLast?_append_of_getLast? hl) hnl
      exact h2

theorem marker_no_newline {z : String} (hznl : '\n' ∉ z.data) :
    '\n' ∉ ("EMBED_MARKER_" ++ z).data := by
  rw [String.data_append]
  intro h
  rcases List.mem_append.mp h with h | h
  · revert h
    decide
  · exact hznl h

theorem marker_block_no_occurrence (z : String) (start_rid : Nat)
    (l : List (Nat × EmbeddedFile)) :
    ¬ ("EMBED_MARKER_" ++ z).data <:+:
      (String.join (l.map (fun iv => oleObjectFragment start_rid iv.1))).data := by
  intro h
  rw [String.data_append] at h
  exact block_no_marker start_rid l (append_infix_head h)

theorem chapterInsertStep_no_occurrence {z : String}
    (hnl : '\n' ∉ ("EMBED_MARKER_" ++ z).data) (start_rid : Nat)
    (res : List Char) (g : String × List (Nat × EmbeddedFile))
    (hres : ¬ ("EMBED_MARKER_" ++ z).data <:+: res) :
    ¬ ("EMBED_MARKER_" ++ z).data <:+: chapterInsertStep start_rid res g :=
  insertAfterParagraph_no_occurrence hres (marker_block_no_occurrence z start_rid g.2)
    (block_shape start_rid g.2) hnl

theorem foldl_chapterStep_skip (start_rid : Nat) (z : String)
    (hnl : '\n' ∉ ("EMBED_MARKER_" ++ z).data) :
    ∀ (gs : List (String × List (Nat × EmbeddedFile))) (res : List Char),
      ¬ ("EMBED_MARKER_" ++ z).data <:+: res →
      gs.foldl (chapterInsertStep start_rid) res =
        (gs.filter (fun g => g.1 != z)).foldl (chapterInsertStep start_rid) res := by
  intro gs
  induction gs with
  | nil => intro res _; rfl
  | cons g rest ih =>
    intro res hres
    rw [List.foldl_cons]
    by_cases hg : g.1 = z
    · have hstep : chapterInsertStep start_rid res g = res := by
        rw [chapterInsertStep, hg, insertAfterParagraph,
          findSubseq_none_of_no_occurrence hres]
      have hfil : (g :: rest).filter (fun g => g.1 != z) =
          rest.filter (fun g => g.1 != z) := by
        rw [List.filter_cons]
        simp [hg]
      rw [hstep, hfil]
      exact ih res hres
    · have hfil : (g :: rest).filter (fun g => g.1 != z) =
          g :: rest.filter (fun g => g.1 != z) := by
        rw [List.filter_cons]
        simp [hg]
      rw [hfil, List.foldl_cons]
      exact ih _ (chapterInsertStep_no_occurrence hnl start_rid res g hres)

/-- Mixed-case behaviour of `add_ole_objects_to_document_xml`: when the
marker of chapter `z` is absent from the body, the result is exactly the
chapter-insertion fold over the remaining groups — chapter `z` contributes
nothing while every other chapter is processed normally, in order. -/
theorem addOleObjectsToDocumentXml_skip (document_xml : String)
    (files : List EmbeddedFile) (start_rid : Nat) (z : String)
    (hmk : ¬ ("EMBED_MARKER_" ++ z).data <:+: document_xml.data)
    (hznl : '\n' ∉ z.data) :
    addOleObjectsToDocumentXml document_xml files start_rid =
      .ok (String.mk (((groupByZipId files).filter (fun g => g.1 != z)).foldl
        (chapterInsertStep start_rid) document_xml.data)) := by
  rw [addOleObjectsToDocumentXml,
    foldl_chapterStep_skip start_rid z (marker_no_newline hznl)
      (groupByZipId files) document_xml.data hmk]

theorem infix_flatMap {α β : Type} (f : α → List β) {l₁ l₂ : List α}
    (h : l₁ <:+: l₂) : l₁.flatMap f <:+: l₂.flatMap f := by
  obtain ⟨p, q, hp⟩ := h
  exact ⟨p.flatMap f, q.flatMap f, by rw [← hp]; simp [List.flatMap_append]⟩

theorem readFileFromZipArchive_ok {entries : List (String × List Nat)}
    {path : String} {bytes : List Nat} {cs : List Char}
    (h1 : entries.lookup path = some bytes) (h2 : utf8Decode bytes = some cs) :
    readFileFromZipArchive entries path = .ok (String.mk cs) := by
  rw [readFileFromZipArchive, h1]
  simp only []
  rw [h2]

/-- General mixed-case form of the marker-absent behaviour of
`embed_ole_objects_into_docx`: when chapter `z`'s marker is missing from
the body, the operation still succeeds, the body part is the insertion
fold over the other chapters only (processed normally, in order, with the
same base relationship id), and the per-attachment binary parts and
relationship entries of every attachment — chapter `z` included — are
still written into the output package. -/
theorem embedOle_chapterMarkerAbsent (assets : IconAssets)
    (entries : List (String × List Nat)) (files : List EmbeddedFile)
    (z : String) (docCs relsCs ctCs : List Char)
    (docB relsB ctB : List Nat) (parts : List (String × List Nat))
    (hdoc : entries.lookup "word/document.xml" = some docB)
    (hdocU : utf8Decode docB = some docCs)
    (hrels : entries.lookup "word/_rels/document.xml.rels" = some relsB)
    (hrelsU : utf8Decode relsB = some relsCs)
    (hct : entries.lookup "[Content_Types].xml" = some ctB)
    (hctU : utf8Decode ctB = some ctCs)
    (hmk : ¬ ("EMBED_MARKER_" ++ z).data <:+: docCs)
    (hznl : '\n' ∉ z.data)
    (hparts : buildNewParts assets files.enum = some parts)
    (hclose : relsClose <:+: relsCs) :
    ∃ out, embedOleObjectsIntoDocx assets (DocxBytes.zip entries) files =
        some (.ok out) ∧
      out = entries.filter (fun e => !(filesToModify.contains e.1)) ++ parts ++
        [("word/document.xml", strBytes (String.mk
           (((groupByZipId files).filter (fun g => g.1 != z)).foldl
             (chapterInsertStep (getNextRelationshipId (String.mk relsCs)))
             docCs))),
         ("word/_rels/document.xml.rels",
           strBytes (addOleRelationshipsToRels (String.mk relsCs) files
             (getNextRelationshipId (String.mk relsCs)))),
         ("[Content_Types].xml",
           strBytes (addOleContentTypes (String.mk ctCs)))] ∧
      (oleRelEntries (getNextRelationshipId (String.mk relsCs)) files).data <:+:
        (addOleRelationshipsToRels (String.mk relsCs) files
          (getNextRelationshipId (String.mk relsCs))).data := by
  refine ⟨_, ?_, rfl, ?_⟩
  · rw [embedOleObjectsIntoDocx, readFileFromZipArchive_ok hdoc hdocU,
      readFileFromZipArchive_ok hrels hrelsU, readFileFromZipArchive_ok hct hctU]
    simp only []
    rw [hparts]
    simp only []
    rw [addOleObjectsToDocumentXml_skip (String.mk docCs) files
      (getNextRelationshipId (String.mk relsCs)) z hmk hznl]
  · have h1 : (oleRelEntries (getNextRelationshipId (String.mk relsCs))
        files).data <:+:
        ((oleRelEntries (getNextRelationshipId (String.mk relsCs))
          files).data ++ relsClose) := ⟨[], relsClose, by simp⟩
    exact h1.trans (replaceAll_infix_rep (by decide) hclose)

/-- C4 (amended).  If one chapter's marker text does not occur anywhere in
the body markup, the whole operation still succeeds without error, the
other chapters are processed normally (the rewritten body is exactly the
chapter-insertion fold over the remaining chapters, in order) and the
absent chapter's body-markup fragments are omitted — but that chapter's
attachments are not traceless: their compound-container and icon binary
parts and their relationship entries are still written into the patched
package. -/
theorem embedOle_markerAbsent_spec (assets : IconAssets)
    (entries : List (String × List Nat)) (files : List EmbeddedFile)
    (z : String) (docCs relsCs ctCs : List Char)
    (docB relsB ctB : List Nat) (parts : List (String × List Nat))
    (hdoc : entries.lookup "word/document.xml" = some docB)
    (hdocU : utf8Decode docB = some docCs)
    (hrels : entries.lookup "word/_rels/document.xml.rels" = some relsB)
    (hrelsU : utf8Decode relsB = some relsCs)
    (hct : entries.lookup "[Content_Types].xml" = some ctB)
    (hctU : utf8Decode ctB = some ctCs)
    (hmk : ¬ ("EMBED_MARKER_" ++ z).data <:+: docCs)
    (hznl : '\n' ∉ z.data)
    (hparts : buildNewParts assets files.enum = some parts)
    (hclose : relsClose <:+: relsCs) :
    ∃ out, embedOleObjectsIntoDocx assets (DocxBytes.zip entries) files =
        some (.ok out) ∧
      out = entries.filter (fun e => !(filesToModify.contains e.1)) ++ parts ++
        [("word/document.xml", strBytes (String.mk
           (((groupByZipId files).filter (fun g => g.1 != z)).foldl
             (chapterInsertStep (getNextRelationshipId (String.mk relsCs)))
             docCs))),
         ("word/_rels/document.xml.rels",
           strBytes (addOleRelationshipsToRels (String.mk relsCs) files
             (getNextRelationshipId (String.mk relsCs)))),
         ("[Content_Types].xml",
           strBytes (addOleContentTypes (String.mk ctCs)))] ∧
      (oleRelEntries (getNextRelationshipId (String.mk relsCs)) files).data <:+:
        (addOleRelationshipsToRels (String.mk relsCs) files
          (getNextRelationshipId (String.mk relsCs))).data :=
  embedOle_chapterMarkerAbsent assets entries files z docCs relsCs ctCs
    docB relsB ctB parts hdoc hdocU hrels hrelsU hct hctU hmk hznl
    hparts hclose

set_option maxRecDepth 200000 in
/-- C4 counterexample to the claim as stated: a package whose body lacks
the chapter marker `EMBED_MARKER_Z1`.  The operation succeeds and the body
markup is unchanged, but the attachment is not traceless: its compound
container is written as `word/embeddings/oleObject1.bin` and the
relationship table gains an entry targeting it. -/
theorem embedOle_marker_trace_counterexample :
    ∃ out relBytes,
      embedOleObjectsIntoDocx ⟨[], [], [], [], [7]⟩
          (DocxBytes.zip
            [("word/document.xml", strBytes "<w:body><w:p>hi</w:p></w:body>"),
             ("word/_rels/document.xml.rels",
               strBytes "<Relationships></Relationships>"),
             ("[Content_Types].xml", strBytes "<Types></Types>")])
          [⟨"id1", "a.txt", "p", [65], "text/plain", FileType.Other "txt", "Z1"⟩] =
        some (.ok out) ∧
      ("word/document.xml", strBytes "<w:body><w:p>hi</w:p></w:body>") ∈ out ∧
      ("word/embeddings/oleObject1.bin", olePackageBytes
        ⟨"id1", "a.txt", "p", [65], "text/plain", FileType.Other "txt", "Z1"⟩) ∈
        out ∧
      ("word/_rels/document.xml.rels", relBytes) ∈ out ∧
      strBytes "oleObject1.bin" <:+: relBytes := by
  obtain ⟨out, hrun, hout, htrace⟩ := embedOle_chapterMarkerAbsent
    ⟨[], [], [], [], [7]⟩
    [("word/document.xml", strBytes "<w:body><w:p>hi</w:p></w:body>"),
     ("word/_rels/document.xml.rels", strBytes "<Relationships></Relationships>"),
     ("[Content_Types].xml", strBytes "<Types></Types>")]
    [⟨"id1", "a.txt", "p", [65], "text/plain", FileType.Other "txt", "Z1"⟩]
    "Z1"
    ("<w:body><w:p>hi</w:p></w:body>" : String).data
    ("<Relationships></Relationships>" : String).data
    ("<Types></Types>" : String).data
    (strBytes "<w:body><w:p>hi</w:p></w:body>")
    (strBytes "<Relationships></Relationships>")
    (strBytes "<Types></Types>")
    [("word/embeddings/oleObject1.bin", olePackageBytes
       ⟨"id1", "a.txt", "p", [65], "text/plain", FileType.Other "txt", "Z1"⟩),
     ("word/media/image1.emf", [7])]
    (by decide) (by decide) (by decide) (by decide) (by decide) (by decide)
    (by decide) (by decide) (by decide) (by decide)
  refine ⟨out,
    strBytes (addOleRelationshipsToRels
      (String.mk ("<Relationships></Relationships>" : String).data)
      [⟨"id1", "a.txt", "p", [65], "text/plain", FileType.Other "txt", "Z1"⟩]
      (getNextRelationshipId
        (String.mk ("<Relationships></Relationships>" : String).data))),
    hrun, ?_, ?_, ?_, ?_⟩
  · rw [hout]
    exact List.mem_append_right _ (List.mem_cons.mpr (Or.inl (by decide)))
  · rw [hout]
    exact List.mem_append_left _
      (List.mem_append_right _ (List.mem_cons_self _ _))
  · rw [hout]
    exact List.mem_append_right _
      (List.mem_cons.mpr (Or.inr (List.mem_cons_self _ _)))
  · have t0 : ("oleObject1.bin" : String).data <:+:
        (oleRelEntries (getNextRelationshipId
          (String.mk ("<Relationships></Relationships>" : String).data))
          [⟨"id1", "a.txt", "p", [65], "text/plain", FileType.Other "txt", "Z1"⟩]).data := by
      decide
    exact infix_flatMap utf8EncodeChar (t0.trans htrace)

set_option maxRecDepth 400000 in
/-- Witness for `embedOle_markerAbsent_spec` at a concrete mixed two-chapter
package: chapter `Z1`'s marker is present in the body, chapter `ZGONE`'s is
absent. -/
theorem embedOle_markerAbsent_spec_witness :
    (¬ ("EMBED_MARKER_" ++ "ZGONE").data <:+:
      ("<w:body><w:p>EMBED_MARKER_Z1</w:p><w:p>x</w:p></w:body>" : String).data) ∧
    ("EMBED_MARKER_" ++ "Z1").data <:+:
      ("<w:body><w:p>EMBED_MARKER_Z1</w:p><w:p>x</w:p></w:body>" : String).data ∧
    ∃ out, embedOleObjectsIntoDocx ⟨[], [], [], [], [7]⟩
        (DocxBytes.zip
          [("word/document.xml",
             strBytes "<w:body><w:p>EMBED_MARKER_Z1</w:p><w:p>x</w:p></w:body>"),
           ("word/_rels/document.xml.rels",
             strBytes "<Relationships></Relationships>"),
           ("[Content_Types].xml", strBytes "<Types></Types>")])
        [⟨"idA", "a.txt", "p", [65], "text/plain", FileType.Other "txt", "Z1"⟩,
         ⟨"idB", "b.txt", "q", [66], "text/plain", FileType.Other "txt", "ZGONE"⟩] = some (.ok out) := by
  refine ⟨by decide, by decide, ?_⟩
  obtain ⟨out, hrun, _, _⟩ := embedOle_markerAbsent_spec
    ⟨[], [], [], [], [7]⟩
    [("word/document.xml",
       strBytes "<w:body><w:p>EMBED_MARKER_Z1</w:p><w:p>x</w:p></w:body>"),
     ("word/_rels/document.xml.rels", strBytes "<Relationships></Relationships>"),
     ("[Content_Types].xml", strBytes "<Types></Types>")]
    [⟨"idA", "a.txt", "p", [65], "text/plain", FileType.Other "txt", "Z1"⟩,
     ⟨"idB", "b.txt", "q", [66], "text/plain", FileType.Other "txt", "ZGONE"⟩]
    "ZGONE"
    ("<w:body><w:p>EMBED_MARKER_Z1</w:p><w:p>x</w:p></w:body>" : String).data
    ("<Relationships></Relationships>" : String).data
    ("<Types></Types>" : String).data
    (strBytes "<w:body><w:p>EMBED_MARKER_Z1</w:p><w:p>x</w:p></w:body>")
    (strBytes "<Relationships></Relationships>")
    (strBytes "<Types></Types>")
    [("word/embeddings/oleObject1.bin", olePackageBytes
       ⟨"idA", "a.txt", "p", [65], "text/plain", FileType.Other "txt", "Z1"⟩),
     ("word/media/image1.emf", [7]),
     ("word/embeddings/oleObject2.bin", olePackageBytes
       ⟨"idB", "b.txt", "q", [66], "text/plain", FileType.Other "txt", "ZGONE"⟩),
     ("word/media/image2.emf", [7])]
    (by decide) (by decide) (by decide) (by decide) (by decide) (by decide)
    (by decide) (by decide) (by decide) (by decide)
  exact ⟨out, hrun⟩

/-- Witness for `ole10Native_roundtrip` at a concrete name and payload. -/
theorem ole10Native_roundtrip_witness :
    ([1, 2, 3] : List Nat).length < 2 ^ 32 ∧
    (0 : Nat) ∉ encodeGBK "a.txt" ∧
    (encodeGBK ("C:\\Users\\Public\\" ++ "a.txt")).length + 1 < 2 ^ 32 ∧
    (∃ pre, createOle10NativeData "a.txt" [1, 2, 3] =
        pre ++ u32le ([1, 2, 3] : List Nat).length ++ [1, 2, 3]) ∧
    parseOle10Native (createOle10NativeData "a.txt" [1, 2, 3]) = some [1, 2, 3] := by
  have h := ole10Native_roundtrip "a.txt" [1, 2, 3] (by decide) (by decide) (by decide)
  exact ⟨by decide, by decide, by decide, h.1, h.2⟩

end ArchiveBox
